import Mathlib

/-!
Shallow embedding of the nanobanana-mcp image-generation adapter
(TypeScript) in Lean 4, together with theorems settling the frozen
claims about its specification.

Modelling conventions used throughout:
* JavaScript numbers are modelled by `JsNum`: rationals extended with
  `inf` (+Infinity) and `nan`.  Division and multiplication round their
  exact result to the nearest IEEE 754 binary64 value (`fl64`,
  round-to-nearest ties-to-even, 53-bit significand, overflow to
  Infinity), matching JavaScript's double arithmetic; `parseInt` of a
  digit string is `fl64` of its integer value; `Math.round` is
  `⌊x + 1/2⌋` of the value a double represents, as ECMA-262 specifies
  it.  All numeric values arising in this code are non-negative, so
  only the non-negative fragment of IEEE behaviour is modelled.
  Subtraction — used only inside the threshold comparisons that choose
  a canned blank image, together with the decimal literals 0.1/0.7/
  1.4/1.5/1.7/2 modelled by their decimal values — is kept exact;
  no theorem below depends on values it produces.
* JavaScript string truthiness (`if (s)`, `a || b`) on optional strings
  is modelled by `jsTruthy` / `jsOrS`: `undefined` is `none`, and the
  empty string is falsy.
* Effects (HTTP fetch, file reads, the Jimp PNG encoder, `fs` writes)
  are passed in explicitly as environment records; a thrown JavaScript
  exception is an `Except.error` carrying the exception's message.
-/

namespace NanoBanana

/-- JavaScript number model: a rational value, +Infinity, or NaN. -/
inductive JsNum where
  | num (q : ℚ)
  | inf
  | nan
deriving DecidableEq, Repr

/-- Base-2 logarithm by structural recursion on an explicit fuel bound
(kernel-reducible, unlike the well-founded `Nat.log2`). -/
def natLog2F : Nat → Nat → Nat
  | 0, _ => 0
  | fuel + 1, n => if 2 ≤ n then natLog2F fuel (n / 2) + 1 else 0

/-- `⌊log₂ n⌋` for positive `n`. -/
def natLog2 (n : Nat) : Nat := natLog2F n n

/-- `2^z` as a rational, for an integer exponent (written with `Nat.pow`
so that it evaluates without deep recursion). -/
def zpow2 (z : ℤ) : ℚ :=
  if 0 ≤ z then ((2 ^ z.toNat : ℕ) : ℚ) else (((2 ^ (-z).toNat : ℕ) : ℚ))⁻¹

/-- Round a rational to the nearest integer, ties to even (the IEEE 754
default rounding used for every JavaScript arithmetic operation). -/
def roundNE (x : ℚ) : ℤ :=
  let n := x.floor
  let f := x - (n : ℚ)
  if f < 1/2 then n
  else if 1/2 < f then n + 1
  else if n % 2 = 0 then n else n + 1

/-- `⌊log₂ q⌋` of a positive rational, computably. -/
def ratFloorLog2 (q : ℚ) : ℤ :=
  let e0 : ℤ := (natLog2 q.num.toNat : ℤ) - (natLog2 q.den : ℤ)
  if zpow2 e0 ≤ q then e0 else e0 - 1

/-- Rounding of a non-negative rational to the nearest IEEE 754 binary64
value (round-to-nearest, ties to even): 53 significant bits in the
normal range, a fixed 2^-1074 grid below 2^-1022, and +Infinity once the
rounded value reaches 2^1024.  This is the result of a JavaScript
arithmetic operation whose exact value is `q`. -/
def fl64 (q : ℚ) : JsNum :=
  if q ≤ 0 then .num 0
  else
    let e := ratFloorLog2 q
    let ulpExp : ℤ := if e < -1022 then -1074 else e - 52
    let r : ℚ := ((roundNE (q / zpow2 ulpExp) : ℤ) : ℚ) * zpow2 ulpExp
    if zpow2 1024 ≤ r then .inf else .num r

namespace JsNum

/-- JS division on the non-negative fragment: `x / 0` is `Infinity` for
positive `x` and `NaN` for `0 / 0`; anything over `Infinity` is `0`; a
finite quotient is rounded to binary64. -/
def div : JsNum → JsNum → JsNum
  | num a, num b =>
      if b = 0 then (if a = 0 then nan else inf) else fl64 (a / b)
  | num _, inf => num 0
  | inf, num _ => inf
  | inf, inf => nan
  | nan, _ => nan
  | _, nan => nan

/-- JS multiplication on the non-negative fragment (`0 * Infinity` is
`NaN`); a finite product is rounded to binary64. -/
def mul : JsNum → JsNum → JsNum
  | num a, num b => fl64 (a * b)
  | num a, inf => if a = 0 then nan else inf
  | inf, num b => if b = 0 then nan else inf
  | inf, inf => inf
  | nan, _ => nan
  | _, nan => nan

/-- JS subtraction restricted to the shapes that arise here
(`Infinity - finite = Infinity`). -/
def sub : JsNum → JsNum → JsNum
  | num a, num b => num (a - b)
  | inf, num _ => inf
  | num _, inf => nan
  | inf, inf => nan
  | nan, _ => nan
  | _, nan => nan

/-- `Math.abs`. -/
def abs : JsNum → JsNum
  | num q => num |q|
  | inf => inf
  | nan => nan

/-- `Math.round`: round half toward +Infinity, i.e. `⌊x + 1/2⌋`
(written with the executable `Rat.floor`). -/
def round : JsNum → JsNum
  | num q => num (((q + 1/2).floor : ℤ) : ℚ)
  | inf => inf
  | nan => nan

/-- JS `<` (false whenever an operand is NaN). -/
def lt : JsNum → JsNum → Bool
  | num a, num b => a < b
  | num _, inf => true
  | inf, _ => false
  | nan, _ => false
  | _, nan => false

/-- JS `>` . -/
def gt (a b : JsNum) : Bool := lt b a

/-- JS `>=` (false whenever an operand is NaN). -/
def ge : JsNum → JsNum → Bool
  | num a, num b => b ≤ a
  | inf, num _ => true
  | inf, inf => true
  | num _, inf => false
  | nan, _ => false
  | _, nan => false

end JsNum

/-- Truthiness of an optional JS string: `undefined` and `""` are falsy. -/
def jsTruthy : Option String → Bool
  | none => false
  | some s => s ≠ ""

/-- JS `a || b` for an optional string `a` with a string default `b`. -/
def jsOrS (a : Option String) (b : String) : String :=
  match a with
  | none => b
  | some s => if s = "" then b else s

/-- JS `a || b` for two plain strings. -/
def jsOrSS (a b : String) : String := if a = "" then b else a

/-! ## `src/utils/aspect-ratio.ts` -/

/-- `AspectRatioConfig` from `src/utils/aspect-ratio.ts`. -/
structure AspectRatioConfig where
  width : JsNum
  height : JsNum
  name : String
deriving DecidableEq, Repr

/-- The fixed `ASPECT_RATIOS` lookup table
(`src/utils/aspect-ratio.ts`, lines 11–26). -/
def ASPECT_RATIOS : List (String × AspectRatioConfig) :=
  [ ("1:1", ⟨.num 1024, .num 1024, "square"⟩),
    ("square", ⟨.num 1024, .num 1024, "square"⟩),
    ("16:9", ⟨.num 1024, .num 576, "landscape"⟩),
    ("landscape", ⟨.num 1024, .num 576, "landscape"⟩),
    ("9:16", ⟨.num 576, .num 1024, "portrait"⟩),
    ("portrait", ⟨.num 576, .num 1024, "portrait"⟩),
    ("4:3", ⟨.num 1024, .num 768, "4:3"⟩),
    ("3:4", ⟨.num 768, .num 1024, "3:4"⟩),
    ("16:10", ⟨.num 1024, .num 640, "widescreen"⟩),
    ("widescreen", ⟨.num 1024, .num 640, "widescreen"⟩),
    ("21:9", ⟨.num 1024, .num 439, "ultrawide"⟩),
    ("ultrawide", ⟨.num 1024, .num 439, "ultrawide"⟩),
    ("2:1", ⟨.num 1024, .num 512, "panoramic"⟩),
    ("panoramic", ⟨.num 1024, .num 512, "panoramic"⟩) ]

/-- Own-property lookup in the `ASPECT_RATIOS` object. -/
def lookupAR (key : String) : Option AspectRatioConfig :=
  (ASPECT_RATIOS.find? (fun p => p.1 = key)).map Prod.snd

/-- JS whitespace for `trim` (the ASCII fragment). -/
def isWS (c : Char) : Bool := c = ' ' ∨ c = '\t' ∨ c = '\r' ∨ c = '\n'

/-- Trim leading and trailing whitespace from a character list. -/
def trimChars (l : List Char) : List Char :=
  ((l.dropWhile isWS).reverse.dropWhile isWS).reverse

/-- `ratio.toLowerCase().trim()` (ASCII case mapping, which is all that
occurs for the tokens involved). -/
def jsNormalize (s : String) : String :=
  String.mk (trimChars (s.toList.map Char.toLower))

/-- The digit value of a decimal digit list, as `parseInt` computes it. -/
def digitsToNat (l : List Char) : Nat :=
  l.foldl (fun n c => n * 10 + (c.toNat - 48)) 0

/-- The regex `^(\d+):(\d+)$`: split into the two digit groups, or fail. -/
def splitRatioDigits : List Char → Option (List Char × List Char)
  | [] => none
  | c :: rest =>
    if c.isDigit then
      match splitRatioDigits rest with
      | some (ds, hs) => some (c :: ds, hs)
      | none => none
    else if c = ':' then
      if rest ≠ [] ∧ rest.all (·.isDigit) then some ([], rest) else none
    else none

/-- `ratio.match(/^(\d+):(\d+)$/)` with both groups read by `parseInt`. -/
def matchRatioDigits (s : String) : Option (Nat × Nat) :=
  match splitRatioDigits s.toList with
  | some (ds, hs) => if ds ≠ [] then some (digitsToNat ds, digitsToNat hs) else none
  | none => none

/-- `parseAspectRatio` (`src/utils/aspect-ratio.ts`, lines 31–68).
The predefined-table lookup uses the lowercased, trimmed token; the
custom `W:H` regex is applied to the original token, exactly as in the
source.  The custom branch computes with doubles: `parseInt` rounds the
digit values to binary64, `width / height` and `1024 / aspectRatio` /
`1024 * aspectRatio` are each rounded binary64 operations, and
`Math.round` takes `⌊x + 1/2⌋` of the resulting double's value. -/
def parseAspectRatio (ratio : Option String) : Option AspectRatioConfig :=
  match ratio with
  | none => none
  | some r =>
    if r = "" then none
    else
      match lookupAR (jsNormalize r) with
      | some cfg => some cfg
      | none =>
        match matchRatioDigits r with
        | some (w, h) =>
          let aspect := JsNum.div (fl64 (w : ℚ)) (fl64 (h : ℚ))
          if aspect.ge (.num 1) then
            some ⟨.num 1024, (JsNum.div (.num 1024) aspect).round, r⟩
          else
            some ⟨(JsNum.mul (.num 1024) aspect).round, .num 1024, r⟩
        | none => none

/-- `getAspectRatioPrompt` (`src/utils/aspect-ratio.ts`, lines 115–126). -/
def getAspectRatioPrompt (config : AspectRatioConfig) : String :=
  let descriptions : List (String × String) :=
    [ ("square", "square format (1:1 aspect ratio)"),
      ("landscape", "landscape orientation (16:9 aspect ratio)"),
      ("portrait", "portrait orientation (9:16 aspect ratio)"),
      ("widescreen", "widescreen format (16:10 aspect ratio)"),
      ("ultrawide", "ultrawide format (21:9 aspect ratio)"),
      ("panoramic", "panoramic format (2:1 aspect ratio)") ]
  match (descriptions.find? (fun p => p.1 = config.name)).map Prod.snd with
  | some d => d
  | none =>
    jsNumRepr config.width ++ "x" ++ jsNumRepr config.height ++ " aspect ratio"
where
  /-- JS template-literal rendering of the dimension numbers.  Only the
  integer case arises in the descriptors this code constructs. -/
  jsNumRepr : JsNum → String
    | .num q => if q.den = 1 then toString q.num else toString q
    | .inf => "Infinity"
    | .nan => "NaN"

/-! ## Base64 and PNG header decoding (used to check the pre-baked
canned blank images of `generateBlankImageSync`). -/

/-- The 6-bit value of a base64 alphabet character (`=` and anything
else decode to nothing). -/
def base64CharVal (c : Char) : Option Nat :=
  if 'A' ≤ c ∧ c ≤ 'Z' then some (c.toNat - 65)
  else if 'a' ≤ c ∧ c ≤ 'z' then some (c.toNat - 97 + 26)
  else if '0' ≤ c ∧ c ≤ '9' then some (c.toNat - 48 + 52)
  else if c = '+' then some 62
  else if c = '/' then some 63
  else none

/-- Reassemble bytes from a list of 6-bit values (standard base64). -/
def bytesOfB64Vals : List Nat → List Nat
  | a :: b :: c :: d :: rest =>
      (a * 4 + b / 16) :: ((b % 16) * 16 + c / 4) :: ((c % 4) * 64 + d)
        :: bytesOfB64Vals rest
  | [a, b] => [a * 4 + b / 16]
  | [a, b, c] => [a * 4 + b / 16, (b % 16) * 16 + c / 4]
  | _ => []

/-- Decode a base64 string to its bytes. -/
def base64DecodeBytes (s : String) : List Nat :=
  bytesOfB64Vals (s.toList.filterMap base64CharVal)

/-- Width and height of a PNG byte stream: checks the 8-byte PNG
signature and the `IHDR` chunk tag, then reads the two big-endian
32-bit dimension fields. -/
def pngDims (bs : List Nat) : Option (Nat × Nat) :=
  if bs.take 8 = [137, 80, 78, 71, 13, 10, 26, 10] ∧
      (bs.drop 12).take 4 = [73, 72, 68, 82] then
    match bs.drop 16 with
    | w0 :: w1 :: w2 :: w3 :: h0 :: h1 :: h2 :: h3 :: _ =>
        some (((w0 * 256 + w1) * 256 + w2) * 256 + w3,
              ((h0 * 256 + h1) * 256 + h2) * 256 + h3)
    | _ => none
  else none

/-! ## `generateBlankImageSync` (`src/utils/aspect-ratio.ts`, lines 75–110) -/

/-- The pre-baked 100x100 white square PNG (base64), key `square` and
`default` of the `blankImages` table. -/
def blankSquareB64 : String :=
  "iVBORw0KGgoAAAANSUhEUgAAAGQAAABkCAIAAAD/gAIDAAAAaklEQVR42u3QMQEAAAjAoNm/tCU8HAAA4NMCriwAAysLzMAKAysLzMAKAysLzMAKAysLzMAKAysLzMAKAysLzMAKAysLzMAKAysLzMAKAysLzMAKAysLzMAKAysLzMAKAysLzMAKAysL+FoBTL0F3UMHQMAAAAAASUVORK5CYII="

/-- The pre-baked 160x90 white rectangle PNG (base64), key `landscape`. -/
def blankLandscapeB64 : String :=
  "iVBORw0KGgoAAAANSUhEUgAAAKAAAABaCAIAAACOuu7MAAAAaklEQVR42u3QIQEAAAjAoNm/tDP8DwAAAAAAAAAAfKTBOjgAAAAAAAAAAAAAAAAAAAAAAAAAAAAAAAAAAAAAAAAAAAAAAAAAAAAAAAAAAAAAAAAAAAAAAAAAAAAAAAAAAMBbAdW1BN0ZvW8UAAAAAElFTkSuQmCC"

/-- The pre-baked 90x160 white rectangle PNG (base64), key `portrait`. -/
def blankPortraitB64 : String :=
  "iVBORw0KGgoAAAANSUhEUgAAAFoAAACgCAIAAAAaBO6CAAAAaklEQVR42u3QMQEAAAjAoNm/tBf8DgAAAAAAAAAAAAAAAAAAfFSHDgAAAAAAAAAAAAAAAAAAAAAAAAAAAAAAAAAAAAAAAAAAAAAAAAAAAAAAAAAAAAAAAAAAAP7VAaxDBbwC3cFJNbQKAAAAAElFTkSuQmCC"

/-- The pre-baked 160x100 white rectangle PNG (base64), key `widescreen`. -/
def blankWidescreenB64 : String :=
  "iVBORw0KGgoAAAANSUhEUgAAAKAAAABkCAIAAACO3jADAAAAaklEQVR42u3QIQEAAAjAoNm/tDP8DwAAAAAAAAAAAADfaTAOAAAAAAAAAAAAAAAAAAAAAAAAAAAAAAAAAAAAAAAAAAAAAAAAAAAAAAAAAAAAAAAAAAAAAAAAAN4CoP0E3T6XVXsAAAAASUVORK5CYII="

/-- `generateBlankImageSync`: choose the best-matching pre-baked blank
image for the config's aspect quotient.  The numeric literals 0.1, 1.5,
2, 0.7, 1.4, 1.7 are the source's thresholds. -/
def generateBlankImageSync (config : AspectRatioConfig) : String :=
  let aspect := JsNum.div config.width config.height
  let imageKey : String :=
    if config.name = "square" ∨ ((aspect.sub (.num 1)).abs.lt (.num (1/10))) then
      "square"
    else if config.name = "landscape" ∨
        (aspect.gt (.num (3/2)) ∧ aspect.lt (.num 2)) then
      "landscape"
    else if config.name = "portrait" ∨ aspect.lt (.num (7/10)) then
      "portrait"
    else if config.name = "widescreen" ∨
        (aspect.gt (.num (7/5)) ∧ aspect.lt (.num (17/10))) then
      "widescreen"
    else if aspect.gt (.num 1) then "landscape"
    else "portrait"
  if imageKey = "square" then blankSquareB64
  else if imageKey = "landscape" then blankLandscapeB64
  else if imageKey = "portrait" then blankPortraitB64
  else if imageKey = "widescreen" then blankWidescreenB64
  else blankSquareB64

/-! ## The Jimp image model and `generateLargeBlankImage`
(identical private methods of `GeminiProvider` and
`OpenRouterProvider`). -/

/-- A Jimp in-memory image: pixel dimensions and a pixel-colour map. -/
structure JimpImage where
  width : Nat
  height : Nat
  pixel : Nat → Nat → Nat

/-- `new Jimp({width, height, color})`: succeeds (returns the image)
for positive integer dimensions and throws otherwise — the throw is
what routes `generateLargeBlankImage` to its canned fallback. -/
def jimpNew (w h : JsNum) (color : Nat) : Option JimpImage :=
  match w, h with
  | .num a, .num b =>
      if 0 < a.num ∧ a.den = 1 ∧ 0 < b.num ∧ b.den = 1 then
        some ⟨a.num.toNat, b.num.toNat, fun _ _ => color⟩
      else none
  | _, _ => none

/-- `image.setPixelColor(c, x, y)`. -/
def setPixelColor (img : JimpImage) (c x y : Nat) : JimpImage :=
  { img with pixel := fun i j => if i = x ∧ j = y then c else img.pixel i j }

/-- The four border-drawing loops of `generateLargeBlankImage`: paint
the one-pixel border with the near-white colour 0xFAFAFAFF. -/
def drawBorder (img : JimpImage) : JimpImage :=
  let borderColor := 0xFAFAFAFF
  let img := (List.range img.width).foldl
    (fun im x => setPixelColor (setPixelColor im borderColor x 0)
      borderColor x (im.height - 1)) img
  (List.range img.height).foldl
    (fun im y => setPixelColor (setPixelColor im borderColor 0 y)
      borderColor (im.width - 1) y) img

/-- Result of `generateLargeBlankImage`: either a live Jimp image
(whose PNG encoding the provider base64s), or a canned base64 string
from the fallback. -/
inductive CanvasResult where
  | live (img : JimpImage)
  | canned (b64 : String)

/-- `generateLargeBlankImage` (identical in both providers): build a
white Jimp image of the config's exact dimensions and paint its border;
on a Jimp failure (invalid dimensions) fall back to
`generateBlankImageSync`. -/
def generateLargeBlankImage (config : AspectRatioConfig) : CanvasResult :=
  match jimpNew config.width config.height 0xFFFFFFFF with
  | some image => .live (drawBorder image)
  | none => .canned (generateBlankImageSync config)

/-- Pixel dimensions obtained by decoding the canvas the synthesizer
returned.  For the live branch the provider returns the Jimp PNG
encoding of the image, which decodes to the image's own dimensions (a
guarantee of the Jimp library, outside this repository); for the canned
branch the base64 PNG is decoded directly. -/
def canvasDims : CanvasResult → Option (Nat × Nat)
  | .live img => some (img.width, img.height)
  | .canned s => pngDims (base64DecodeBytes s)

/-! ## `src/types.ts` -/

/-- `ImageInput`: a reference image, polymorphic over its source.  The
tool schema and `GeminiProvider` also use a `path` field (local file
path), so it is included here alongside the fields of the `types.ts`
interface. -/
structure ImageInput where
  path : Option String := none
  url : Option String := none
  base64 : Option String := none
  mimeType : Option String := none
  description : Option String := none
deriving DecidableEq, Repr

/-- `GeneratedImage`: `type` is `"base64"` or `"url"` with the
corresponding payload fields. -/
structure GeneratedImage where
  type : String
  data : Option String := none
  url : Option String := none
  size : Option String := none
  format : Option String := none
deriving DecidableEq, Repr

/-- The `usage` record of `GenerationResult`. -/
structure Usage where
  input_tokens : Option Nat := none
  output_tokens : Option Nat := none
  tokens : Option Nat := none
deriving DecidableEq, Repr

/-- `GenerationResult`, the normalized result shape of both providers. -/
structure GenerationResult where
  success : Bool
  provider : String
  model : String
  prompt : String
  enhanced_prompt : Option String := none
  message : Option String := none
  images : Option (List GeneratedImage) := none
  saved_files : Option (List String) := none
  usage : Option Usage := none
  error : Option String := none
deriving DecidableEq, Repr

/-- `ImageGenerationArgs`: the generic argument set of the
`generate_image` tool. -/
structure ImageGenerationArgs where
  prompt : String
  images : Option (List ImageInput) := none
  provider : Option String := none
  scenario : Option String := none
  aspect_ratio : Option String := none
  negative_prompt : Option String := none
  save_to_file : Option Bool := none
  filename : Option String := none
  show_full_response : Option Bool := none
  sample_count : Option Nat := none
deriving DecidableEq, Repr

/-! ## Prompt composition (identical private methods
`OpenRouterProvider.buildPrompt`/`enhancePromptForScenario` in
`src/providers/openrouter-provider.ts` lines 163–203 and
`GeminiProvider.buildPrompt`/`enhancePromptForScenario`). -/

/-- The fixed scenario-prefix lookup table (`enhancements`). -/
def scenarioEnhancements : List (String × String) :=
  [ ("style-transfer", "Apply the artistic style from the reference image(s) to: "),
    ("character-design", "Create a character design sheet showing multiple views and poses for: "),
    ("pose-modification", "Modify the pose of the subject while maintaining their appearance: "),
    ("background-expansion", "Expand or modify the background while keeping the main subject: "),
    ("multi-reference", "Combine elements from all reference images to create: "),
    ("cross-view", "Generate different viewing angles or perspectives of: "),
    ("ar-overlay", "Add augmented reality information overlays to: "),
    ("photo-enhancement", "Enhance and improve the quality of: ") ]

namespace OpenRouterProvider

/-- `OpenRouterProvider.enhancePromptForScenario`:
`(enhancements[scenario] || '') + prompt`. -/
def enhancePromptForScenario (prompt scenario : String) : String :=
  (((scenarioEnhancements.find? (fun p => p.1 = scenario)).map Prod.snd).getD "")
    ++ prompt

/-- `OpenRouterProvider.buildPrompt`: scenario prefix, then the aspect
clause, then the negative clause, then the sample-count wrapper. -/
def buildPrompt (args : ImageGenerationArgs)
    (aspectRatioConfig : Option AspectRatioConfig) : String :=
  let prompt := args.prompt
  let prompt := if jsTruthy args.scenario then
      enhancePromptForScenario prompt (args.scenario.getD "")
    else prompt
  let prompt := match aspectRatioConfig with
    | some cfg => prompt ++ " Generate the image to fill the entire "
        ++ getAspectRatioPrompt cfg ++ " canvas provided by the blank image."
    | none => prompt
  let prompt := if jsTruthy args.negative_prompt then
      prompt ++ " Avoid: " ++ args.negative_prompt.getD "" ++ "."
    else prompt
  match args.sample_count with
  | some n => if 1 < n then
      "Generate " ++ toString n ++ " variations of: " ++ prompt
    else prompt
  | none => prompt

end OpenRouterProvider

namespace GeminiProvider

/-- `GeminiProvider.enhancePromptForScenario` (textually identical to
the OpenRouter copy). -/
def enhancePromptForScenario (prompt scenario : String) : String :=
  (((scenarioEnhancements.find? (fun p => p.1 = scenario)).map Prod.snd).getD "")
    ++ prompt

/-- `GeminiProvider.buildPrompt` (textually identical to the
OpenRouter copy). -/
def buildPrompt (args : ImageGenerationArgs)
    (aspectRatioConfig : Option AspectRatioConfig) : String :=
  let prompt := args.prompt
  let prompt := if jsTruthy args.scenario then
      enhancePromptForScenario prompt (args.scenario.getD "")
    else prompt
  let prompt := match aspectRatioConfig with
    | some cfg => prompt ++ " Generate the image to fill the entire "
        ++ getAspectRatioPrompt cfg ++ " canvas provided by the blank image."
    | none => prompt
  let prompt := if jsTruthy args.negative_prompt then
      prompt ++ " Avoid: " ++ args.negative_prompt.getD "" ++ "."
    else prompt
  match args.sample_count with
  | some n => if 1 < n then
      "Generate " ++ toString n ++ " variations of: " ++ prompt
    else prompt
  | none => prompt

end GeminiProvider

/-! ## JS string helpers used by the providers and the file persister -/

/-- Recognize the literal `;base64,` at the head of a character list. -/
def dropB64Marker : List Char → Option (List Char)
  | ';' :: 'b' :: 'a' :: 's' :: 'e' :: '6' :: '4' :: ',' :: rest => some rest
  | _ => none

/-- Scan for the first `;base64,` not preceded by a line terminator
(the `.` of the regex cannot cross one). -/
def stripAux : List Char → Option (List Char)
  | [] => none
  | c :: rest =>
    match dropB64Marker (c :: rest) with
    | some r => some r
    | none => if c = '\n' ∨ c = '\r' then none else stripAux rest

/-- `s.replace(/^data:.*?;base64,/, '')`: strip a data-URI prefix. -/
def stripDataUriPrefix (s : String) : String :=
  match s.toList with
  | 'd' :: 'a' :: 't' :: 'a' :: ':' :: rest =>
    match stripAux rest with
    | some r => String.mk r
    | none => s
  | _ => s

/-- `s.indexOf(c)` for a single character: the JS convention, -1 when
absent. -/
def jsIndexOfChar (s : String) (c : Char) : Int :=
  match s.toList.findIdx? (· = c) with
  | some i => (i : Int)
  | none => -1

/-- `s.substring(a, b)`: clamp both arguments into `[0, length]` and
swap them when out of order. -/
def jsSubstring (s : String) (a b : Int) : String :=
  let n : Int := s.length
  let a' := min (max a 0) n
  let b' := min (max b 0) n
  let lo := (min a' b').toNat
  let hi := (max a' b').toNat
  String.mk ((s.toList.take hi).drop lo)

/-- Is `pat` a prefix of `l`? -/
def listHasPrefix : List Char → List Char → Bool
  | [], _ => true
  | _ :: _, [] => false
  | p :: ps, c :: cs => p = c && listHasPrefix ps cs

/-- `s.startsWith(pat)`. -/
def jsStartsWith (s pat : String) : Bool :=
  listHasPrefix pat.toList s.toList

/-- `s.split(c)`, JS single-character split. -/
def splitOnChar (c : Char) : List Char → List (List Char)
  | [] => [[]]
  | x :: rest =>
    if x = c then [] :: splitOnChar c rest
    else
      match splitOnChar c rest with
      | h :: t => (x :: h) :: t
      | [] => [[x]]

/-- `s.split(c)[1]`, with both a missing element and the empty string
collapsing to `""` (each is falsy where this is used). -/
def jsSplitSecond (s : String) (c : Char) : String :=
  match splitOnChar c s.toList with
  | _ :: snd :: _ => String.mk snd
  | _ => ""

/-- `s.includes(pat)`: substring search. -/
def containsSub (pat : List Char) : List Char → Bool
  | [] => pat.isEmpty
  | c :: rest => listHasPrefix pat (c :: rest) || containsSub pat rest

/-- One attempted match of `/https?:\/\/[^\s]+/` at the head of the
list: the scheme prefix followed by at least one non-whitespace
character, matched greedily. -/
def urlMatchAt (l : List Char) : Option String :=
  if listHasPrefix "https://".toList l then
    match (l.drop 8).takeWhile (fun c => ¬ c.isWhitespace) with
    | [] => none
    | tail => some ("https://" ++ String.mk tail)
  else if listHasPrefix "http://".toList l then
    match (l.drop 7).takeWhile (fun c => ¬ c.isWhitespace) with
    | [] => none
    | tail => some ("http://" ++ String.mk tail)
  else none

/-- `s.match(/https?:\/\/[^\s]+/)`: leftmost match. -/
def firstUrlMatch : List Char → Option String
  | [] => none
  | c :: rest =>
    match urlMatchAt (c :: rest) with
    | some u => some u
    | none => firstUrlMatch rest

/-- Capture of `(.*?);` — characters up to the first `;`, failing at a
line terminator or the end of input. -/
def captureToSemi : List Char → Option (List Char)
  | [] => none
  | c :: rest =>
    if c = ';' then some []
    else if c = '\n' ∨ c = '\r' then none
    else (captureToSemi rest).map (c :: ·)

/-- One attempted match of `/data:image\/(.*?);/` at the head of the
list. -/
def dataImageMatchAt : List Char → Option (List Char)
  | 'd' :: 'a' :: 't' :: 'a' :: ':' :: 'i' :: 'm' :: 'a' :: 'g' :: 'e' :: '/' :: rest =>
      captureToSemi rest
  | _ => none

/-- `s.match(/data:image\/(.*?);/)`: leftmost match, returning the
captured group. -/
def extCapture : List Char → Option (List Char)
  | [] => none
  | c :: rest =>
    match dataImageMatchAt (c :: rest) with
    | some cap => some cap
    | none => extCapture rest

/-- `s.replace(/[:.]/g, '-')` applied to the ISO timestamp. -/
def dashTimestamp (s : String) : String :=
  String.mk (s.toList.map (fun c => if c = ':' ∨ c = '.' then '-' else c))

/-- The PNG base64 of the aspect-ratio canvas as the provider sends it:
the Jimp encoding of the live image (`image.getBuffer('image/png')`
then `.toString('base64')`), or the canned fallback string. The Jimp
encoder is the library component of the environment. -/
def canvasString (jimpEncode : JimpImage → String)
    (cfg : AspectRatioConfig) : String :=
  match generateLargeBlankImage cfg with
  | .live img => jimpEncode img
  | .canned s => s

/-- An HTTP call's outcome as the adapter observes it: a rejected fetch
(network failure), or a response with its `ok` flag, status, error
text, and JSON body (`.error` when `response.json()` throws). -/
inductive HttpOutcome (β : Type) where
  | netError (msg : String)
  | response (ok : Bool) (status : Nat) (errorText : String)
      (body : Except String β)

/-! ## `src/providers/openrouter-provider.ts` -/

/-- The model identifier constant `GEMINI_MODEL` of the OpenRouter
provider. -/
def OR_GEMINI_MODEL : String := "google/gemini-2.5-flash-image-preview"

/-- A chat-message content block of the OpenRouter request body. -/
inductive ORBlock where
  | text (text : String)
  | imageUrl (url : String)
deriving DecidableEq, Repr

/-- `message.images[i].image_url` of an OpenRouter response. -/
structure ORImgUrl where
  url : Option String := none
deriving DecidableEq, Repr

/-- An entry of `message.images` of an OpenRouter response. -/
structure ORRespImage where
  image_url : Option ORImgUrl := none
deriving DecidableEq, Repr

/-- `choices[i].message` of an OpenRouter response. -/
structure ORMessage where
  images : Option (List ORRespImage) := none
  content : Option String := none
deriving DecidableEq, Repr

/-- An entry of `choices` of an OpenRouter response. -/
structure ORChoice where
  message : ORMessage
deriving DecidableEq, Repr

/-- The `usage` object of an OpenRouter response. -/
structure ORUsage where
  prompt_tokens : Option Nat := none
  completion_tokens : Option Nat := none
  total_tokens : Option Nat := none
deriving DecidableEq, Repr

/-- A parsed OpenRouter response body. -/
structure ORBody where
  choices : List ORChoice := []
  usage : Option ORUsage := none
deriving DecidableEq, Repr

/-- The OpenRouter adapter's environment: the Jimp PNG encoder and the
outcome of the single POST. -/
structure OREnv where
  jimpEncode : JimpImage → String
  http : HttpOutcome ORBody

namespace OpenRouterProvider

/-- The content block built for one reference image
(`generateImage`, lines 39–54): images with neither inline base64 nor
a URL produce no block. -/
def imageBlock (image : ImageInput) : Option ORBlock :=
  if jsTruthy image.base64 ∨ jsTruthy image.url then
    let imageUrl :=
      if jsTruthy image.base64 then
        "data:" ++ jsOrS image.mimeType "image/png" ++ ";base64,"
          ++ stripDataUriPrefix (image.base64.getD "")
      else image.url.getD ""
    some (.imageUrl imageUrl)
  else none

/-- The outbound `content` array (`generateImage`, lines 31–67): the
text block, the reference-image blocks in order, then — when an aspect
descriptor resolved — the blank canvas block, appended last. -/
def buildContent (args : ImageGenerationArgs)
    (jimpEncode : JimpImage → String) : List ORBlock :=
  let aspectRatioConfig := parseAspectRatio args.aspect_ratio
  let content : List ORBlock := [.text (buildPrompt args aspectRatioConfig)]
  let content := match args.images with
    | some imgs =>
      if 0 < imgs.length then
        imgs.foldl (fun acc image =>
          match imageBlock image with
          | some b => acc ++ [b]
          | none => acc) content
      else content
    | none => content
  match aspectRatioConfig with
  | some cfg =>
      content ++ [.imageUrl ("data:image/png;base64," ++ canvasString jimpEncode cfg)]
  | none => content

/-- Image extraction from `message.images` (lines 100–118). -/
def extractFromImages (imgs : List ORRespImage) : List GeneratedImage :=
  imgs.foldl (fun acc img =>
    match img.image_url with
    | none => acc
    | some iu =>
      if jsTruthy iu.url then
        let url := iu.url.getD ""
        if jsStartsWith url "data:" then
          acc ++ [⟨"base64", some url, none, none,
            some (jsOrSS (jsSubstring url 11 (jsIndexOfChar url ';')) "png")⟩]
        else acc ++ [⟨"url", none, some url, none, none⟩]
      else acc) []

/-- Full image extraction from a response message, including the
fallback scan of `message.content` (lines 96–137). -/
def extractImages (message : ORMessage) : List GeneratedImage :=
  let images := match message.images with
    | some imgs => if 0 < imgs.length then extractFromImages imgs else []
    | none => []
  if images.length = 0 ∧ jsTruthy message.content then
    let content := message.content.getD ""
    if jsStartsWith content "data:image" then
      [⟨"base64", some content, none, none,
        some (jsOrSS (jsSubstring content 11 (jsIndexOfChar content ';')) "png")⟩]
    else if containsSub "http".toList content.toList then
      match firstUrlMatch content.toList with
      | some u => [⟨"url", none, some u, none, none⟩]
      | none => []
    else []
  else images

/-- The `catch` branch's failure result (lines 152–160). -/
def failureResult (args : ImageGenerationArgs) (msg : String) :
    GenerationResult :=
  { success := false, provider := "OpenRouter", model := OR_GEMINI_MODEL,
    prompt := args.prompt, error := some msg }

/-- `OpenRouterProvider.generateImage` (lines 21–161).  `Except.error`
models an exception escaping to the caller; everything inside the `try`
is converted to a `GenerationResult`.  Reading `data.choices[0].message`
of a body with no choices throws the Node `TypeError`, caught by the
same `catch`. -/
def generateImage (apiKey : Option String) (args : ImageGenerationArgs)
    (env : OREnv) : Except String GenerationResult :=
  if ¬ jsTruthy apiKey then
    .error "OPENROUTER_API_KEY environment variable is not set"
  else
    match env.http with
    | .netError msg => .ok (failureResult args msg)
    | .response ok status errorText body =>
      if ¬ ok then
        .ok (failureResult args
          ("OpenRouter API error: " ++ toString status ++ " - " ++ errorText))
      else
        match body with
        | .error msg => .ok (failureResult args msg)
        | .ok data =>
          match data.choices with
          | [] => .ok (failureResult args
              "Cannot read properties of undefined (reading 'message')")
          | choice :: _ =>
            let message := choice.message
            .ok { success := true, provider := "OpenRouter",
                  model := OR_GEMINI_MODEL, prompt := args.prompt,
                  images := some (extractImages message),
                  message := some (jsOrS message.content
                    "Image generated successfully"),
                  usage := data.usage.map (fun u =>
                    ⟨u.prompt_tokens, u.completion_tokens, u.total_tokens⟩) }

end OpenRouterProvider

/-! ## `src/providers/gemini-provider.ts` -/

/-- The model identifier of the direct Gemini provider. -/
def G_MODEL : String := "gemini-2.5-flash-image-preview"

/-- A resolved image source: base64 payload plus MIME type. -/
structure FileData where
  base64 : String
  mimeType : String
deriving DecidableEq, Repr

/-- Outcome of a `fetch` of an image URL (used by
`fetchImageAsBase64`): rejection, or a response with `ok`,
`content-type` header and body bytes as base64. -/
inductive FetchImgOutcome where
  | netError (msg : String)
  | response (ok : Bool) (contentType : Option String) (base64 : String)

/-- A part of the Gemini request's `parts` array. -/
inductive GPart where
  | text (text : String)
  | inlineData (mimeType : String) (data : String)
deriving DecidableEq, Repr

/-- `parts[i].inline_data` of a Gemini response. -/
structure GInline where
  mime_type : Option String := none
  data : Option String := none
deriving DecidableEq, Repr

/-- A part of a Gemini response candidate. -/
structure GRespPart where
  inline_data : Option GInline := none
deriving DecidableEq, Repr

/-- `candidates[i].content` of a Gemini response. -/
structure GContent where
  parts : Option (List GRespPart) := none
deriving DecidableEq, Repr

/-- An entry of `candidates` of a Gemini response. -/
structure GCandidate where
  content : Option GContent := none
deriving DecidableEq, Repr

/-- The `usageMetadata` object of a Gemini response. -/
structure GUsage where
  promptTokenCount : Option Nat := none
  candidatesTokenCount : Option Nat := none
  totalTokenCount : Option Nat := none
deriving DecidableEq, Repr

/-- A parsed Gemini response body. -/
structure GeminiBody where
  candidates : Option (List GCandidate) := none
  usageMetadata : Option GUsage := none
deriving DecidableEq, Repr

/-- The Gemini adapter's environment: `readImageFileAsBase64` from
`../utils.js` (that helper's source file is not among the provided
sources; it is abstracted as an effect returning file data or a thrown
message), the `fetch` used by `fetchImageAsBase64`, the Jimp PNG
encoder, and the outcome of the generate POST. -/
structure GeminiEnv where
  readFile : String → Except String FileData
  fetchImg : String → FetchImgOutcome
  jimpEncode : JimpImage → String
  http : HttpOutcome GeminiBody

/-- JS template interpolation of a possibly-`undefined` value. -/
def renderJs (o : Option String) : String := o.getD "undefined"

namespace GeminiProvider

/-- `GeminiProvider.fetchImageAsBase64` (lines 297–308). -/
def fetchImageAsBase64 (env : GeminiEnv) (url : String) :
    Except String FileData :=
  match env.fetchImg url with
  | .netError msg => .error msg
  | .response ok contentType b64 =>
    if ¬ ok then .error ("Failed to fetch image from URL: " ++ url)
    else .ok ⟨b64, jsOrS contentType "image/png"⟩

/-- The inline-data part built for one reference image
(`generateImage`, lines 148–177): inline base64 first, then a local
path read via `readImageFileAsBase64`, then a URL fetch; an image with
none of the three sources yields no part.  A thrown read/fetch error
propagates (to the adapter's catch). -/
def imagePart (env : GeminiEnv) (image : ImageInput) :
    Except String (Option GPart) :=
  if jsTruthy image.base64 then
    .ok (some (.inlineData (jsOrS image.mimeType "image/png")
      (stripDataUriPrefix (image.base64.getD ""))))
  else if jsTruthy image.path then
    (env.readFile (image.path.getD "")).map (fun fd =>
      some (.inlineData (jsOrS image.mimeType fd.mimeType) fd.base64))
  else if jsTruthy image.url then
    (fetchImageAsBase64 env (image.url.getD "")).map (fun fd =>
      some (.inlineData fd.mimeType fd.base64))
  else .ok none

/-- The reference-image loop of `generateImage`: sequential, aborting
at the first thrown resolution error. -/
def imageParts (env : GeminiEnv) : List ImageInput → Except String (List GPart)
  | [] => .ok []
  | image :: rest =>
    match imagePart env image with
    | .error e => .error e
    | .ok p =>
      match imageParts env rest with
      | .error e => .error e
      | .ok tail => .ok (p.toList ++ tail)

/-- The outbound `parts` array (`generateImage`, lines 143–191): the
text part, the resolved reference images in order, then — when an
aspect descriptor resolved — the blank canvas part, appended last. -/
def buildParts (args : ImageGenerationArgs) (env : GeminiEnv) :
    Except String (List GPart) :=
  let aspectRatioConfig := parseAspectRatio args.aspect_ratio
  let head : List GPart := [.text (buildPrompt args aspectRatioConfig)]
  match (match args.images with
         | some imgs => if 0 < imgs.length then imageParts env imgs else .ok []
         | none => .ok []) with
  | .error e => .error e
  | .ok imgParts =>
    let parts := head ++ imgParts
    match aspectRatioConfig with
    | some cfg =>
        .ok (parts ++ [.inlineData "image/png" (canvasString env.jimpEncode cfg)])
    | none => .ok parts

/-- Image extraction from a Gemini response: every candidate, every
part, in encounter order (lines 213–229). -/
def extractImages (data : GeminiBody) : List GeneratedImage :=
  match data.candidates with
  | none => []
  | some cands => cands.foldl (fun acc candidate =>
      match candidate.content with
      | none => acc
      | some content =>
        match content.parts with
        | none => acc
        | some parts => parts.foldl (fun acc2 part =>
            match part.inline_data with
            | none => acc2
            | some inl => acc2 ++ [⟨"base64",
                some ("data:" ++ jsOrS inl.mime_type "image/png"
                  ++ ";base64," ++ renderJs inl.data),
                none, none,
                some (match inl.mime_type with
                  | none => "png"
                  | some m => jsOrSS (jsSplitSecond m '/') "png")⟩]) acc) []

/-- The `catch` branch's failure result (lines 244–252). -/
def failureResult (args : ImageGenerationArgs) (msg : String) :
    GenerationResult :=
  { success := false, provider := "Gemini Direct", model := G_MODEL,
    prompt := args.prompt, error := some msg }

/-- `GeminiProvider.generateImage` (lines 134–253): build the parts
(resolution errors are caught), POST, and normalize; `Except.error`
models an exception escaping to the caller. -/
def generateImage (apiKey : Option String) (args : ImageGenerationArgs)
    (env : GeminiEnv) : Except String GenerationResult :=
  if ¬ jsTruthy apiKey then
    .error "GEMINI_API_KEY environment variable is not set"
  else
    match buildParts args env with
    | .error msg => .ok (failureResult args msg)
    | .ok _ =>
      match env.http with
      | .netError msg => .ok (failureResult args msg)
      | .response ok status errorText body =>
        if ¬ ok then
          .ok (failureResult args
            ("Gemini API error: " ++ toString status ++ " - " ++ errorText))
        else
          match body with
          | .error msg => .ok (failureResult args msg)
          | .ok data =>
            .ok { success := true, provider := "Gemini Direct",
                  model := G_MODEL, prompt := args.prompt,
                  images := some (extractImages data),
                  message := some "Image generated successfully",
                  usage := data.usageMetadata.map (fun u =>
                    ⟨u.promptTokenCount, u.candidatesTokenCount,
                     u.totalTokenCount⟩) }

end GeminiProvider

/-! ## `src/index.ts`: the adapter selector, and `src/utils.ts`:
`saveImages` and `sanitizeFilename`. -/

/-- Which provider adapter the server selected. -/
inductive ProviderId where
  | gemini
  | openrouter
deriving DecidableEq, Repr

/-- `NanoBananaMCPServer.selectProvider` (`src/index.ts`, lines
198–214).  A provider `isAvailable()` iff its credential variable is a
non-empty string. -/
def selectProvider (geminiKey openrouterKey : Option String)
    (preference : Option String) : Option ProviderId :=
  if preference = some "gemini" ∧ jsTruthy geminiKey then some .gemini
  else if preference = some "openrouter" ∧ jsTruthy openrouterKey then
    some .openrouter
  else if preference = some "auto" ∨ ¬ jsTruthy preference then
    if jsTruthy geminiKey then some .gemini
    else if jsTruthy openrouterKey then some .openrouter
    else none
  else none

/-- Outcome of a `fetch` of an image URL inside `saveImages`. -/
inductive FetchBytesOutcome where
  | netError (msg : String)
  | response (ok : Bool) (contentType : Option String) (bytes : List Nat)

/-- The file persister's environment: `fs.mkdir`, `fetch`, `fs.writeFile`
and the per-iteration wall clock (`new Date().toISOString()`). -/
structure SaveEnv where
  mkdir : Except String Unit
  fetchUrl : String → FetchBytesOutcome
  write : String → List Nat → Except String Unit
  isoTimestamp : Nat → String

/-- `sanitizeFilename` (`src/utils.ts`, lines 461–463): collapse every
maximal run of characters outside `[a-z0-9_-]` (case-insensitive) to a
single `_`. -/
def sanitizeAux : Bool → List Char → List Char
  | _, [] => []
  | prevBad, c :: rest =>
    if ('a' ≤ c ∧ c ≤ 'z') ∨ ('A' ≤ c ∧ c ≤ 'Z') ∨ ('0' ≤ c ∧ c ≤ '9')
        ∨ c = '_' ∨ c = '-' then
      c :: sanitizeAux false rest
    else if prevBad then sanitizeAux true rest
    else '_' :: sanitizeAux true rest

/-- `filename.replace(/[^a-z0-9_\-]+/gi, '_').slice(0, 64)`. -/
def sanitizeFilename (filename : String) : String :=
  String.mk ((sanitizeAux false filename.toList).take 64)

/-- The tail of one `saveImages` iteration: build the timestamped,
possibly index-suffixed filename under the fixed output directory and
write the buffer, producing the path on success. -/
def writeOut (env : SaveEnv) (count i : Nat) (baseFilename ext : String)
    (buffer : List Nat) : Except String (Option String) :=
  let timestamp := dashTimestamp (env.isoTimestamp i)
  let safeBase := sanitizeFilename (jsOrSS baseFilename "generated_image")
  let filename :=
    if 1 < count then
      safeBase ++ "_" ++ timestamp ++ "_" ++ toString (i + 1) ++ "." ++ ext
    else safeBase ++ "_" ++ timestamp ++ "." ++ ext
  let filepath := "generated_images/" ++ filename
  (env.write filepath buffer).map (fun _ => some filepath)

/-- The body of one `saveImages` loop iteration (`src/utils.ts`, lines
412–452), up to and including the write: `.ok (some path)` is a
successful save, `.ok none` is the silent `continue` for an image with
no usable source, `.error` is a thrown fetch/write failure (caught by
the loop's per-image `catch`). -/
def saveStep (env : SaveEnv) (count i : Nat) (image : GeneratedImage)
    (baseFilename : String) : Except String (Option String) :=
  if image.type = "base64" ∧ jsTruthy image.data then
    let dataStr := image.data.getD ""
    let buffer := base64DecodeBytes (stripDataUriPrefix dataStr)
    let ext :=
      if jsTruthy image.format then image.format.getD ""
      else if jsStartsWith dataStr "data:" then
        match extCapture dataStr.toList with
        | some cap => if String.mk cap = "jpeg" then "jpg" else String.mk cap
        | none => "png"
      else "png"
    writeOut env count i baseFilename ext buffer
  else if image.type = "url" ∧ jsTruthy image.url then
    match env.fetchUrl (image.url.getD "") with
    | .netError msg => .error msg
    | .response ok contentType bytes =>
      if ¬ ok then
        .error ("Failed to fetch image from URL: " ++ image.url.getD "")
      else
        let ext := match contentType with
          | some c =>
            if c ≠ "" then
              let e := jsOrSS (jsSplitSecond c '/') "png"
              if e = "jpeg" then "jpg" else e
            else "png"
          | none => "png"
        writeOut env count i baseFilename ext bytes
  else .ok none

/-- The `saveImages` loop: each iteration's thrown failure is caught,
logged and skipped; successful paths accumulate in order. -/
def saveLoop (env : SaveEnv) (count : Nat) (base : String) :
    Nat → List GeneratedImage → List String
  | _, [] => []
  | i, image :: rest =>
    match saveStep env count i image base with
    | .ok (some p) => p :: saveLoop env count base (i + 1) rest
    | .ok none => saveLoop env count base (i + 1) rest
    | .error _ => saveLoop env count base (i + 1) rest

/-- `saveImages` (`src/utils.ts`, lines 403–459): `fs.mkdir` first
(outside the per-image catch), then the loop. -/
def saveImages (env : SaveEnv) (images : List GeneratedImage)
    (baseFilename : String) : Except String (List String) :=
  match env.mkdir with
  | .error e => .error e
  | .ok _ => .ok (saveLoop env images.length baseFilename 0 images)

/-! ## Claim C1: prompt composition -/

/-- Spec-side composition of the final instruction text, written after
the claim's words: the scenario prefix from the fixed table (empty when
the tag is unknown or absent) prepended to the base prompt, then the
aspect clause, then the negative clause, wrapped by the sample-count
prefix exactly when the count exceeds 1.  A scenario or negative
prompt is "present" when it is a non-empty string (the code tests JS
truthiness). -/
def composedPromptSpec (args : ImageGenerationArgs)
    (aspect : Option AspectRatioConfig) : String :=
  let prefixStr := match args.scenario with
    | none => ""
    | some s => (((scenarioEnhancements.find? (fun p => p.1 = s)).map
        Prod.snd).getD "")
  let core := prefixStr ++ args.prompt
  let core := match aspect with
    | some cfg => core ++ " Generate the image to fill the entire "
        ++ getAspectRatioPrompt cfg ++ " canvas provided by the blank image."
    | none => core
  let core := if jsTruthy args.negative_prompt then
      core ++ " Avoid: " ++ args.negative_prompt.getD "" ++ "."
    else core
  match args.sample_count with
  | some n => if 1 < n then
      "Generate " ++ toString n ++ " variations of: " ++ core
    else core
  | none => core

/-- Both providers' `buildPrompt` agree with the spec-side composition. -/
theorem buildPrompt_eq_composedPromptSpec (args : ImageGenerationArgs)
    (aspect : Option AspectRatioConfig) :
    OpenRouterProvider.buildPrompt args aspect = composedPromptSpec args aspect
      ∧ GeminiProvider.buildPrompt args aspect = composedPromptSpec args aspect := by
  unfold OpenRouterProvider.buildPrompt GeminiProvider.buildPrompt
    composedPromptSpec OpenRouterProvider.enhancePromptForScenario
    GeminiProvider.enhancePromptForScenario
  cases hs : args.scenario with
  | none => simp [jsTruthy]
  | some s =>
    by_cases h : s = ""
    · subst h
      simp [jsTruthy, scenarioEnhancements]
    · simp [jsTruthy, h]

set_option maxRecDepth 8192 in
/-- C1.  For every prompt, scenario tag, aspect descriptor, negative
prompt and sample count, the composed instruction text is exactly the
fixed-order concatenation: scenario prefix (empty when the tag is
unknown or absent) before the base prompt, then the aspect clause, then
the `Avoid:` clause, wrapped as `Generate N variations of: …` exactly
when the sample count exceeds 1; and on the claim's concrete example
the output is exactly the quoted string. -/
theorem C1_prompt_composition :
    (∀ (args : ImageGenerationArgs) (aspect : Option AspectRatioConfig),
      OpenRouterProvider.buildPrompt args aspect = composedPromptSpec args aspect
        ∧ GeminiProvider.buildPrompt args aspect = composedPromptSpec args aspect)
    ∧ OpenRouterProvider.buildPrompt
        { prompt := "X", scenario := some "style-transfer",
          negative_prompt := some "Y", sample_count := some 2 }
        (parseAspectRatio (some "square"))
      = "Generate 2 variations of: Apply the artistic style from the reference image(s) to: X Generate the image to fill the entire square format (1:1 aspect ratio) canvas provided by the blank image. Avoid: Y."
    ∧ GeminiProvider.buildPrompt
        { prompt := "X", scenario := some "style-transfer",
          negative_prompt := some "Y", sample_count := some 2 }
        (parseAspectRatio (some "square"))
      = "Generate 2 variations of: Apply the artistic style from the reference image(s) to: X Generate the image to fill the entire square format (1:1 aspect ratio) canvas provided by the blank image. Avoid: Y." := by
  refine ⟨buildPrompt_eq_composedPromptSpec, ?_, ?_⟩ <;> decide

/-! ## Claim C5: the adapter selector -/

/-- C5.  The selector returns none when neither credential is
configured (for every preference); an explicit preference returns that
backend iff its own credential is configured, regardless of the other
backend and with no fallback; and under `auto` or an absent preference
the Gemini backend is preferred over OpenRouter, falling back to the
single available one. -/
theorem C5_provider_selection :
    (∀ pref, selectProvider none none pref = none) ∧
    (∀ gk rk, selectProvider gk rk (some "gemini") =
        if jsTruthy gk then some .gemini else none) ∧
    (∀ gk rk, selectProvider gk rk (some "openrouter") =
        if jsTruthy rk then some .openrouter else none) ∧
    (∀ gk rk, selectProvider gk rk (some "auto") =
        if jsTruthy gk then some .gemini
        else if jsTruthy rk then some .openrouter else none) ∧
    (∀ gk rk, selectProvider gk rk none =
        if jsTruthy gk then some .gemini
        else if jsTruthy rk then some .openrouter else none) := by
  refine ⟨?_, ?_, ?_, ?_, ?_⟩
  · intro pref
    unfold selectProvider
    simp [jsTruthy]
  · intro gk rk
    unfold selectProvider
    by_cases h : jsTruthy gk = true <;> simp [h, jsTruthy]
  · intro gk rk
    unfold selectProvider
    by_cases h : jsTruthy rk = true <;> simp [h, jsTruthy]
  · intro gk rk
    unfold selectProvider
    simp [jsTruthy]
  · intro gk rk
    unfold selectProvider
    simp [jsTruthy]

/-! ## Claim C2: the aspect-ratio resolver -/

/-- `Rat.floor` agrees with the floor of the `FloorRing` instance. -/
theorem ratFloor_eq_intFloor (q : ℚ) : (q.floor : ℤ) = ⌊q⌋ := by
  rw [Rat.floor_def, Rat.floor_def']

/-- `Math.round` on a finite value is `⌊q + 1/2⌋`. -/
theorem JsNum.round_num (q : ℚ) :
    JsNum.round (.num q) = .num ((⌊q + 1/2⌋ : ℤ) : ℚ) := by
  show JsNum.num (((q + 1/2).floor : ℤ) : ℚ) = _
  rw [ratFloor_eq_intFloor]

/-- The regex split succeeds on `digits ++ ':' ++ digits`. -/
theorem splitRatioDigits_append (ds hs : List Char)
    (h1 : ds.all (·.isDigit) = true) (h2 : hs ≠ [])
    (h3 : hs.all (·.isDigit) = true) :
    splitRatioDigits (ds ++ ':' :: hs) = some (ds, hs) := by
  induction ds with
  | nil =>
    simp only [List.nil_append]
    have h4 : splitRatioDigits (':' :: hs) =
        if hs ≠ [] ∧ hs.all (·.isDigit) = true then some ([], hs) else none := rfl
    rw [h4, if_pos ⟨h2, h3⟩]
  | cons c rest ih =>
    simp only [List.all_cons, Bool.and_eq_true] at h1
    simp [splitRatioDigits, h1.1, ih h1.2]

/-- The full regex match on `digits:digits`. -/
theorem matchRatioDigits_append (ds hs : List Char) (h0 : ds ≠ [])
    (h1 : ds.all (·.isDigit) = true) (h2 : hs ≠ [])
    (h3 : hs.all (·.isDigit) = true) :
    matchRatioDigits (String.mk (ds ++ ':' :: hs)) =
      some (digitsToNat ds, digitsToNat hs) := by
  unfold matchRatioDigits
  have : (String.mk (ds ++ ':' :: hs)).toList = ds ++ ':' :: hs := rfl
  rw [this, splitRatioDigits_append ds hs h1 h2 h3]
  simp [h0]

/-! ### The binary64 rounding model: correctness lemmas -/

theorem natLog2F_bounds : ∀ fuel n, 0 < n → n ≤ fuel →
    2 ^ natLog2F fuel n ≤ n ∧ n < 2 ^ (natLog2F fuel n + 1) := by
  intro fuel
  induction fuel with
  | zero => intro n h1 h2; omega
  | succ fuel ih =>
    intro n h1 h2
    by_cases h : 2 ≤ n
    · have hrec := ih (n / 2) (by omega) (by omega)
      simp only [natLog2F, if_pos h]
      have e1 : 2 ^ (natLog2F fuel (n / 2) + 1) =
          2 ^ natLog2F fuel (n / 2) * 2 := pow_succ 2 _
      have e2 : 2 ^ (natLog2F fuel (n / 2) + 1 + 1) =
          2 ^ (natLog2F fuel (n / 2) + 1) * 2 := pow_succ 2 _
      omega
    · simp only [natLog2F, if_neg h, pow_zero, pow_one]
      omega

theorem natLog2_bounds (n : Nat) (h : 0 < n) :
    2 ^ natLog2 n ≤ n ∧ n < 2 ^ (natLog2 n + 1) :=
  natLog2F_bounds n n h le_rfl

theorem zpow2_eq (z : ℤ) : zpow2 z = (2 : ℚ) ^ z := by
  unfold zpow2
  by_cases h : 0 ≤ z
  · rw [if_pos h, show ((2 ^ z.toNat : ℕ) : ℚ) = (2 : ℚ) ^ z.toNat by push_cast; ring,
      ← zpow_natCast (2 : ℚ) z.toNat, Int.toNat_of_nonneg h]
  · have h2 : (0 : ℤ) ≤ -z := by omega
    rw [if_neg h, show ((2 ^ (-z).toNat : ℕ) : ℚ) = (2 : ℚ) ^ (-z).toNat by push_cast; ring,
      ← zpow_natCast (2 : ℚ) (-z).toNat, Int.toNat_of_nonneg h2, ← zpow_neg, neg_neg]

theorem zpow2_pos (z : ℤ) : 0 < zpow2 z := by
  rw [zpow2_eq]; exact zpow_pos (by norm_num) z

theorem zpow2_ne_zero (z : ℤ) : zpow2 z ≠ 0 := ne_of_gt (zpow2_pos z)

theorem zpow2_add (a b : ℤ) : zpow2 (a + b) = zpow2 a * zpow2 b := by
  rw [zpow2_eq, zpow2_eq, zpow2_eq]; exact zpow_add₀ (by norm_num) a b

theorem zpow2_le_iff {a b : ℤ} : zpow2 a ≤ zpow2 b ↔ a ≤ b := by
  rw [zpow2_eq, zpow2_eq]; exact zpow_le_zpow_iff_right₀ (by norm_num)

theorem zpow2_lt_iff {a b : ℤ} : zpow2 a < zpow2 b ↔ a < b := by
  rw [zpow2_eq, zpow2_eq]; exact zpow_lt_zpow_iff_right₀ (by norm_num)

theorem zpow2_nonneg_eq (z : ℤ) (hz : 0 ≤ z) :
    zpow2 z = ((2 ^ z.toNat : ℕ) : ℚ) := by
  unfold zpow2
  rw [if_pos hz]

theorem zpow2_neg (z : ℤ) : zpow2 (-z) = (zpow2 z)⁻¹ := by
  rw [zpow2_eq, zpow2_eq]; exact zpow_neg 2 z

theorem zpow2_ofNat (n : ℕ) : zpow2 (n : ℤ) = ((2 ^ n : ℕ) : ℚ) := by
  rw [zpow2_nonneg_eq _ (Int.ofNat_nonneg n)]
  norm_num

/-- The two-sided bound defining `ratFloorLog2`. -/
theorem ratFloorLog2_spec (q : ℚ) (hq : 0 < q) :
    zpow2 (ratFloorLog2 q) ≤ q ∧ q < zpow2 (ratFloorLog2 q + 1) := by
  have hnum : 0 < q.num := Rat.num_pos.mpr hq
  set n := q.num.toNat with hn
  set d := q.den with hd
  have hn0 : 0 < n := by omega
  have hd0 : 0 < d := q.den_pos
  have hnq : ((n : ℤ) : ℚ) = (q.num : ℚ) := by
    rw [hn, Int.toNat_of_nonneg (le_of_lt hnum)]
  have hqnd : q = (n : ℚ) / (d : ℚ) := by
    rw [← Rat.num_div_den q]
    push_cast [← hnq]
    norm_num
  have hdQ : (0 : ℚ) < (d : ℚ) := by exact_mod_cast hd0
  obtain ⟨hL1, hL2⟩ := natLog2_bounds n hn0
  obtain ⟨hM1, hM2⟩ := natLog2_bounds d hd0
  set Ln := natLog2 n with hLn
  set Ld := natLog2 d with hLd
  set e0 : ℤ := (Ln : ℤ) - (Ld : ℤ) with he0
  -- generic transfer between rational and natural inequalities
  have key_lt : ∀ z : ℤ, z + (Ld : ℤ) = (Ln : ℤ) + 1 → q < zpow2 z := by
    intro z hz
    rw [hqnd, div_lt_iff₀ hdQ]
    have h2 : (n : ℚ) * zpow2 (Ld : ℤ) < zpow2 z * (d : ℚ) * zpow2 (Ld : ℤ) →
        (n : ℚ) < zpow2 z * (d : ℚ) :=
      fun h => lt_of_mul_lt_mul_right h (le_of_lt (zpow2_pos _))
    apply h2
    have h3 : zpow2 z * (d : ℚ) * zpow2 (Ld : ℤ) = zpow2 ((Ln : ℤ) + 1) * (d : ℚ) := by
      rw [mul_comm (zpow2 z) (d : ℚ), mul_assoc, ← zpow2_add, hz, mul_comm]
    rw [h3]
    have hz1 : zpow2 (Ld : ℤ) = ((2 ^ Ld : ℕ) : ℚ) := by
      rw [zpow2_nonneg_eq _ (Int.ofNat_nonneg Ld)]
      norm_num
    have hz2 : zpow2 ((Ln : ℤ) + 1) = ((2 ^ (Ln + 1) : ℕ) : ℚ) := by
      rw [show ((Ln : ℤ) + 1) = ((Ln + 1 : ℕ) : ℤ) by push_cast; ring,
        zpow2_nonneg_eq _ (Int.ofNat_nonneg _)]
      norm_num
    rw [hz1, hz2]
    have hnat : n * 2 ^ Ld < 2 ^ (Ln + 1) * d := by
      have s1 : n * 2 ^ Ld ≤ n * d := mul_le_mul_left' hM1 n
      have s2 : n * d < 2 ^ (Ln + 1) * d := (Nat.mul_lt_mul_right hd0).mpr hL2
      exact lt_of_le_of_lt s1 s2
    exact_mod_cast hnat
  have key_le : ∀ z : ℤ, z + ((Ld : ℤ) + 1) = (Ln : ℤ) → zpow2 z ≤ q := by
    intro z hz
    rw [hqnd, le_div_iff₀ hdQ]
    have h2 : zpow2 z * (d : ℚ) * zpow2 ((Ld : ℤ) + 1) ≤ (n : ℚ) * zpow2 ((Ld : ℤ) + 1) →
        zpow2 z * (d : ℚ) ≤ (n : ℚ) :=
      fun h => le_of_mul_le_mul_right h (zpow2_pos _)
    apply h2
    have h3 : zpow2 z * (d : ℚ) * zpow2 ((Ld : ℤ) + 1) = zpow2 (Ln : ℤ) * (d : ℚ) := by
      rw [mul_comm (zpow2 z) (d : ℚ), mul_assoc, ← zpow2_add, hz, mul_comm]
    rw [h3]
    have hz1 : zpow2 ((Ld : ℤ) + 1) = ((2 ^ (Ld + 1) : ℕ) : ℚ) := by
      rw [show ((Ld : ℤ) + 1) = ((Ld + 1 : ℕ) : ℤ) by push_cast; ring,
        zpow2_nonneg_eq _ (Int.ofNat_nonneg _)]
      norm_num
    have hz2 : zpow2 (Ln : ℤ) = ((2 ^ Ln : ℕ) : ℚ) := by
      rw [zpow2_nonneg_eq _ (Int.ofNat_nonneg Ln)]
      norm_num
    rw [hz1, hz2]
    have hnat : 2 ^ Ln * d ≤ n * 2 ^ (Ld + 1) := by
      have s1 : 2 ^ Ln * d ≤ n * d := mul_le_mul_right' hL1 d
      have s2 : n * d ≤ n * 2 ^ (Ld + 1) := mul_le_mul_left' (le_of_lt hM2) n
      exact le_trans s1 s2
    exact_mod_cast hnat
  have hup : q < zpow2 (e0 + 1) := key_lt (e0 + 1) (by omega)
  have hdown : zpow2 (e0 - 1) ≤ q := key_le (e0 - 1) (by omega)
  unfold ratFloorLog2
  rw [← hn, ← hd, ← hLn, ← hLd, ← he0]
  by_cases hcase : zpow2 e0 ≤ q
  · rw [if_pos hcase]
    exact ⟨hcase, hup⟩
  · rw [if_neg hcase]
    refine ⟨hdown, ?_⟩
    have : e0 - 1 + 1 = e0 := by ring
    rw [this]
    exact lt_of_not_le hcase

theorem le_ratFloorLog2 (q : ℚ) (hq : 0 < q) (j : ℤ) (h : zpow2 j ≤ q) :
    j ≤ ratFloorLog2 q := by
  have h2 := (ratFloorLog2_spec q hq).2
  have h3 : j < ratFloorLog2 q + 1 :=
    zpow2_lt_iff.mp (lt_of_le_of_lt h h2)
  omega

theorem ratFloorLog2_le (q : ℚ) (hq : 0 < q) (k : ℤ) (h : q ≤ zpow2 k) :
    ratFloorLog2 q ≤ k := by
  have h1 := (ratFloorLog2_spec q hq).1
  exact zpow2_le_iff.mp (le_trans h1 h)

theorem ratFloorLog2_lt (q : ℚ) (hq : 0 < q) (k : ℤ) (h : q < zpow2 k) :
    ratFloorLog2 q < k := by
  have h1 := (ratFloorLog2_spec q hq).1
  exact zpow2_lt_iff.mp (lt_of_le_of_lt h1 h)

theorem roundNE_le (x : ℚ) : ((roundNE x : ℤ) : ℚ) ≤ x + 1/2 := by
  unfold roundNE
  have hfl : ((x.floor : ℤ) : ℚ) ≤ x := by
    rw [ratFloor_eq_intFloor]; exact Int.floor_le x
  by_cases h1 : x - (x.floor : ℚ) < 1/2
  · rw [if_pos h1]; linarith
  · rw [if_neg h1]
    by_cases h2 : (1/2 : ℚ) < x - (x.floor : ℚ)
    · rw [if_pos h2]; push_cast; linarith
    · rw [if_neg h2]
      have h3 : x - (x.floor : ℚ) = 1/2 := le_antisymm (le_of_not_lt h2) (le_of_not_lt h1)
      by_cases h4 : x.floor % 2 = 0
      · rw [if_pos h4]; linarith
      · rw [if_neg h4]; push_cast; linarith

theorem le_roundNE (x : ℚ) : x - 1/2 ≤ ((roundNE x : ℤ) : ℚ) := by
  unfold roundNE
  have hfl : x < ((x.floor : ℤ) : ℚ) + 1 := by
    rw [ratFloor_eq_intFloor]; exact Int.lt_floor_add_one x
  by_cases h1 : x - (x.floor : ℚ) < 1/2
  · rw [if_pos h1]; linarith
  · rw [if_neg h1]
    have h1' : (1/2 : ℚ) ≤ x - (x.floor : ℚ) := le_of_not_lt h1
    by_cases h2 : (1/2 : ℚ) < x - (x.floor : ℚ)
    · rw [if_pos h2]; push_cast; linarith
    · rw [if_neg h2]
      by_cases h4 : x.floor % 2 = 0
      · rw [if_pos h4]; linarith
      · rw [if_neg h4]; push_cast; linarith

theorem roundNE_intCast (n : ℤ) : roundNE ((n : ℤ) : ℚ) = n := by
  unfold roundNE
  have h0 : ((n : ℚ)).floor = n := by
    have := ratFloor_eq_intFloor ((n : ℤ) : ℚ)
    rw [Int.floor_intCast] at this
    exact this
  rw [h0]
  norm_num

/-- Master lemma: in the normal range the rounded value keeps the
binade of the input and is within half an ulp of it. -/
theorem fl64_normal (q : ℚ) (hq : 0 < q)
    (h1 : -1022 ≤ ratFloorLog2 q) (h2 : ratFloorLog2 q ≤ 1022) :
    ∃ v : ℚ, fl64 q = .num v ∧
      zpow2 (ratFloorLog2 q) ≤ v ∧ v ≤ zpow2 (ratFloorLog2 q + 1) ∧
      |v - q| ≤ zpow2 (ratFloorLog2 q - 53) := by
  obtain ⟨hlo, hhi⟩ := ratFloorLog2_spec q hq
  set e := ratFloorLog2 q with he
  set u := zpow2 (e - 52) with hu
  have hu0 : 0 < u := zpow2_pos _
  set y : ℚ := q / u with hy
  set m : ℤ := roundNE y with hm
  set v : ℚ := ((m : ℤ) : ℚ) * u with hv
  have hy_lo : zpow2 52 ≤ y := by
    rw [hy, le_div_iff₀ hu0, hu, ← zpow2_add]
    have : (52 : ℤ) + (e - 52) = e := by ring
    rw [this]; exact hlo
  have hy_hi : y < zpow2 53 := by
    rw [hy, div_lt_iff₀ hu0, hu, ← zpow2_add]
    have : (53 : ℤ) + (e - 52) = e + 1 := by ring
    rw [this]; exact hhi
  have hm_le : (m : ℚ) ≤ y + 1/2 := roundNE_le y
  have hm_ge : y - 1/2 ≤ (m : ℚ) := le_roundNE y
  have h52 : zpow2 52 = ((2 ^ 52 : ℤ) : ℚ) := by
    rw [show (52 : ℤ) = ((52 : ℕ) : ℤ) by norm_num, zpow2_ofNat]; push_cast; ring
  have h53 : zpow2 53 = ((2 ^ 53 : ℤ) : ℚ) := by
    rw [show (53 : ℤ) = ((53 : ℕ) : ℤ) by norm_num, zpow2_ofNat]; push_cast; ring
  have hm_lo : (2 ^ 52 : ℤ) ≤ m := by
    by_contra hc
    push_neg at hc
    have : (m : ℚ) ≤ ((2 ^ 52 : ℤ) : ℚ) - 1 := by exact_mod_cast Int.le_sub_one_of_lt hc
    rw [← h52] at this
    linarith
  have hm_hi : m ≤ (2 ^ 53 : ℤ) := by
    by_contra hc
    push_neg at hc
    have : ((2 ^ 53 : ℤ) : ℚ) + 1 ≤ (m : ℚ) := by exact_mod_cast hc
    rw [← h53] at this
    linarith
  have hv_lo : zpow2 e ≤ v := by
    have : zpow2 52 * u ≤ (m : ℚ) * u := by
      apply mul_le_mul_of_nonneg_right _ (le_of_lt hu0)
      rw [h52]; exact_mod_cast hm_lo
    have he2 : zpow2 52 * u = zpow2 e := by
      rw [hu, ← zpow2_add]; congr 1; ring
    rw [hv, ← he2]; exact this
  have hv_hi : v ≤ zpow2 (e + 1) := by
    have : (m : ℚ) * u ≤ zpow2 53 * u := by
      apply mul_le_mul_of_nonneg_right _ (le_of_lt hu0)
      rw [h53]; exact_mod_cast hm_hi
    have he2 : zpow2 53 * u = zpow2 (e + 1) := by
      rw [hu, ← zpow2_add]; congr 1; ring
    rw [hv, ← he2] at *
    exact this
  have hv_near : |v - q| ≤ zpow2 (e - 53) := by
    have hq_eq : q = y * u := by
      rw [hy, div_mul_cancel₀ _ (ne_of_gt hu0)]
    have hdiff : v - q = ((m : ℚ) - y) * u := by
      rw [hv, hq_eq]; ring
    rw [hdiff, abs_mul, abs_of_pos hu0]
    have habs : |(m : ℚ) - y| ≤ 1/2 := by
      rw [abs_le]; constructor <;> linarith
    have : |(m : ℚ) - y| * u ≤ (1/2) * u :=
      mul_le_mul_of_nonneg_right habs (le_of_lt hu0)
    apply le_trans this
    have : (1/2 : ℚ) * u = zpow2 (e - 53) := by
      rw [hu, show (1/2 : ℚ) = zpow2 (-1) by rw [zpow2]; norm_num, ← zpow2_add]
      congr 1; ring
    rw [this]
  refine ⟨v, ?_, hv_lo, hv_hi, hv_near⟩
  unfold fl64
  rw [if_neg (not_le.mpr hq)]
  have hnot : ¬ (ratFloorLog2 q < -1022) := not_lt.mpr h1
  simp only [← he, hnot, if_false]
  rw [if_neg ?hguard]
  case hguard =>
    apply not_le.mpr
    apply lt_of_le_of_lt hv_hi
    rw [zpow2_lt_iff]
    omega

/-- If the input sits exactly on the rounding grid it is returned
unchanged (no rounding error). -/
theorem fl64_exact (q : ℚ) (hq : 0 < q)
    (h1 : -1022 ≤ ratFloorLog2 q) (h2 : ratFloorLog2 q ≤ 1022)
    (k : ℤ) (hk : q / zpow2 (ratFloorLog2 q - 52) = ((k : ℤ) : ℚ)) :
    fl64 q = .num q := by
  obtain ⟨hlo, hhi⟩ := ratFloorLog2_spec q hq
  set e := ratFloorLog2 q with he
  set u := zpow2 (e - 52) with hu
  have hu0 : 0 < u := zpow2_pos _
  have hm : roundNE (q / u) = k := by rw [hk, roundNE_intCast]
  have hv : ((roundNE (q / u) : ℤ) : ℚ) * u = q := by
    rw [hm, ← hk, div_mul_cancel₀ _ (ne_of_gt hu0)]
  unfold fl64
  rw [if_neg (not_le.mpr hq)]
  have hnot : ¬ (ratFloorLog2 q < -1022) := not_lt.mpr h1
  simp only [← he, hnot, if_false]
  rw [← hu, hv, if_neg ?hguard]
  case hguard =>
    apply not_le.mpr
    apply lt_of_lt_of_le hhi
    rw [zpow2_le_iff]
    omega

/-- Positive integers below 2^53 are exactly representable. -/
theorem fl64_natCast (n : ℕ) (h1 : 0 < n) (h2 : n < 2 ^ 53) :
    fl64 ((n : ℕ) : ℚ) = .num ((n : ℕ) : ℚ) := by
  have hq : (0 : ℚ) < (n : ℚ) := by exact_mod_cast h1
  have hone : zpow2 0 ≤ (n : ℚ) := by
    rw [show (0 : ℤ) = ((0 : ℕ) : ℤ) by norm_num, zpow2_ofNat]
    exact_mod_cast h1
  have hcap : (n : ℚ) < zpow2 53 := by
    rw [show (53 : ℤ) = ((53 : ℕ) : ℤ) by norm_num, zpow2_ofNat]
    exact_mod_cast h2
  have he_lo : (0 : ℤ) ≤ ratFloorLog2 (n : ℚ) := le_ratFloorLog2 _ hq 0 hone
  have he_hi : ratFloorLog2 (n : ℚ) ≤ 52 := by
    have := ratFloorLog2_lt _ hq 53 hcap
    omega
  set e := ratFloorLog2 (n : ℚ) with he
  -- the scaled value is an integer because the ulp divides 1
  have hsplit : ((n : ℚ)) / zpow2 (e - 52) = (((n : ℤ) * 2 ^ (52 - e).toNat : ℤ) : ℚ) := by
    rw [div_eq_mul_inv, ← zpow2_neg]
    have : -(e - 52) = (52 - e) := by ring
    rw [this, zpow2_nonneg_eq _ (by omega)]
    push_cast
    ring
  exact fl64_exact _ hq (by omega) (by omega) _ hsplit

/-- Powers of two in the normal range are exactly representable. -/
theorem fl64_zpow2 (k : ℤ) (h1 : -1022 ≤ k) (h2 : k ≤ 1022) :
    fl64 (zpow2 k) = .num (zpow2 k) := by
  have hq : 0 < zpow2 k := zpow2_pos k
  have he : ratFloorLog2 (zpow2 k) = k := by
    have ha := le_ratFloorLog2 _ hq k le_rfl
    have hb := ratFloorLog2_le _ hq k le_rfl
    omega
  apply fl64_exact _ hq (by omega) (by omega) (2 ^ 52)
  rw [he, div_eq_mul_inv, ← zpow2_neg]
  have : -(k - 52) = 52 - k + -k + k := by ring
  rw [this]
  have hsum : zpow2 k * zpow2 (52 - k + -k + k) = zpow2 52 := by
    rw [← zpow2_add]
    congr 1
    ring
  rw [hsum, show (52 : ℤ) = ((52 : ℕ) : ℤ) by norm_num, zpow2_ofNat]
  push_cast
  ring

/-- The value of `fl64` under an upper bound by a power of two: the
bound is preserved, saturation to infinity cannot occur, and the result
stays within half an ulp of the input. -/
theorem fl64_bounded (q : ℚ) (k : ℤ) (hq : 0 < q) (hk : q ≤ zpow2 k)
    (h1 : -1022 ≤ ratFloorLog2 q) (h2 : k ≤ 1022) :
    ∃ v : ℚ, fl64 q = .num v ∧
      zpow2 (ratFloorLog2 q) ≤ v ∧ v ≤ zpow2 k ∧
      |v - q| ≤ zpow2 (ratFloorLog2 q - 53) := by
  have he_hi : ratFloorLog2 q ≤ k := ratFloorLog2_le q hq k hk
  by_cases hcase : ratFloorLog2 q = k
  · -- then q is exactly 2^k
    have hqe : q = zpow2 k := by
      have := (ratFloorLog2_spec q hq).1
      rw [hcase] at this
      exact le_antisymm hk this
    refine ⟨q, ?_, ?_, le_of_eq hqe,
      by rw [sub_self, abs_zero]; exact le_of_lt (zpow2_pos _)⟩
    · rw [hqe]; exact fl64_zpow2 k (by omega) h2
    · rw [hcase, hqe]
  · obtain ⟨v, hfl, hlo, hhi, hnear⟩ := fl64_normal q hq h1 (by omega)
    refine ⟨v, hfl, hlo, ?_, hnear⟩
    apply le_trans hhi
    rw [zpow2_le_iff]
    omega

unseal Rat.mul Rat.inv Rat.add Rat.sub in
set_option maxRecDepth 16384 in
set_option maxHeartbeats 2000000 in
set_option exponentiation.threshold 1100 in
/-- C2 (amended).  Named tokens resolve through the fixed table,
matched case-insensitively after trimming, with exactly the documented
dimension pairs; every other token of the form `<a>:<b>` with positive
integers below 2^53 resolves with the larger side pinned to 1024 and
the other side the `Math.round` of the double-precision computation
`1024 / (a / b)` (resp. `1024 * (a / b)`), a value between 0 and 1024;
tokens that neither appear in the table nor match the digit pattern —
and an absent token — resolve to no constraint.  Because the quotients
are IEEE binary64 operations, the derived side can differ from the
exact `round(1024·min/max)` at rounding boundaries: `2048:93` yields
height 46 where the exact value 1024·93/2048 = 46.5 would round to 47,
and `2047:2048` rounds to the square 1024×1024 rather than a strict
portrait.  (Tokens like `0:5` with a zero component match the digit
pattern and yield a degenerate descriptor instead of `null`; see the
counterexample.) -/
theorem C2_aspect_resolver_amended :
    (∀ s cfg, lookupAR (jsNormalize s) = some cfg →
      parseAspectRatio (some s) = some cfg) ∧
    (parseAspectRatio (some "1:1") = some ⟨.num 1024, .num 1024, "square"⟩ ∧
     parseAspectRatio (some "square") = some ⟨.num 1024, .num 1024, "square"⟩ ∧
     parseAspectRatio (some "16:9") = some ⟨.num 1024, .num 576, "landscape"⟩ ∧
     parseAspectRatio (some "landscape") = some ⟨.num 1024, .num 576, "landscape"⟩ ∧
     parseAspectRatio (some "9:16") = some ⟨.num 576, .num 1024, "portrait"⟩ ∧
     parseAspectRatio (some "portrait") = some ⟨.num 576, .num 1024, "portrait"⟩ ∧
     parseAspectRatio (some "4:3") = some ⟨.num 1024, .num 768, "4:3"⟩ ∧
     parseAspectRatio (some "3:4") = some ⟨.num 768, .num 1024, "3:4"⟩ ∧
     parseAspectRatio (some "16:10") = some ⟨.num 1024, .num 640, "widescreen"⟩ ∧
     parseAspectRatio (some "widescreen") = some ⟨.num 1024, .num 640, "widescreen"⟩ ∧
     parseAspectRatio (some "21:9") = some ⟨.num 1024, .num 439, "ultrawide"⟩ ∧
     parseAspectRatio (some "ultrawide") = some ⟨.num 1024, .num 439, "ultrawide"⟩ ∧
     parseAspectRatio (some "2:1") = some ⟨.num 1024, .num 512, "panoramic"⟩ ∧
     parseAspectRatio (some "panoramic") = some ⟨.num 1024, .num 512, "panoramic"⟩ ∧
     parseAspectRatio (some "SQUARE") = some ⟨.num 1024, .num 1024, "square"⟩ ∧
     parseAspectRatio (some " Landscape ") = some ⟨.num 1024, .num 576, "landscape"⟩) ∧
    (∀ ds hs : List Char, ds ≠ [] → ds.all (·.isDigit) = true →
      hs ≠ [] → hs.all (·.isDigit) = true →
      0 < digitsToNat ds → 0 < digitsToNat hs →
      digitsToNat ds < 2 ^ 53 → digitsToNat hs < 2 ^ 53 →
      lookupAR (jsNormalize (String.mk (ds ++ ':' :: hs))) = none →
      (digitsToNat hs ≤ digitsToNat ds →
        ∃ h : ℤ, 0 ≤ h ∧ h ≤ 1024 ∧
          parseAspectRatio (some (String.mk (ds ++ ':' :: hs))) =
            some ⟨.num 1024, .num (h : ℚ), String.mk (ds ++ ':' :: hs)⟩ ∧
          (JsNum.div (.num 1024)
              (JsNum.div (.num (digitsToNat ds : ℚ))
                (.num (digitsToNat hs : ℚ)))).round = .num (h : ℚ)) ∧
      (digitsToNat ds < digitsToNat hs →
        ∃ w : ℤ, 0 ≤ w ∧ w ≤ 1024 ∧
          parseAspectRatio (some (String.mk (ds ++ ':' :: hs))) =
            some ⟨.num (w : ℚ), .num 1024, String.mk (ds ++ ':' :: hs)⟩ ∧
          (JsNum.mul (.num 1024)
              (JsNum.div (.num (digitsToNat ds : ℚ))
                (.num (digitsToNat hs : ℚ)))).round = .num (w : ℚ))) ∧
    (parseAspectRatio (some "7:5") = some ⟨.num 1024, .num 731, "7:5"⟩ ∧
     parseAspectRatio (some "2048:93") = some ⟨.num 1024, .num 46, "2048:93"⟩) ∧
    (∀ s, lookupAR (jsNormalize s) = none → matchRatioDigits s = none →
      parseAspectRatio (some s) = none) ∧
    parseAspectRatio none = none := by
  refine ⟨?_, ?_, ?_, ?_, ?_, rfl⟩
  · intro s cfg hlook
    by_cases hs : s = ""
    · subst hs
      simp [jsNormalize, trimChars, lookupAR, ASPECT_RATIOS] at hlook
    · simp [parseAspectRatio, hs, hlook]
  · refine ⟨?_, ?_, ?_, ?_, ?_, ?_, ?_, ?_, ?_, ?_, ?_, ?_, ?_, ?_, ?_, ?_⟩ <;> decide
  · intro ds hs hds0 hds hhs0 hhs ha hb ha53 hb53 hlook
    set s := String.mk (ds ++ ':' :: hs) with hsdef
    have hsne : s ≠ "" := by
      simp [hsdef, String.ext_iff]
    have hmatch := matchRatioDigits_append ds hs hds0 hds hhs0 hhs
    rw [← hsdef] at hmatch
    set a := digitsToNat ds with hadef
    set b := digitsToNat hs with hbdef
    have haQ : (0 : ℚ) < (a : ℚ) := by exact_mod_cast ha
    have hbQ : (0 : ℚ) < (b : ℚ) := by exact_mod_cast hb
    have hbne : (b : ℚ) ≠ 0 := ne_of_gt hbQ
    have hwD : fl64 ((a : ℕ) : ℚ) = .num ((a : ℕ) : ℚ) := fl64_natCast a ha ha53
    have hhD : fl64 ((b : ℕ) : ℚ) = .num ((b : ℕ) : ℚ) := fl64_natCast b hb hb53
    have hdiv1 : JsNum.div (.num ((a : ℕ) : ℚ)) (.num ((b : ℕ) : ℚ)) =
        fl64 ((a : ℚ) / (b : ℚ)) := by
      simp [JsNum.div, hbne]
    have hx0 : (0 : ℚ) < (a : ℚ) / (b : ℚ) := div_pos haQ hbQ
    have hz0 : zpow2 0 = 1 := by
      rw [show (0 : ℤ) = ((0 : ℕ) : ℤ) by norm_num, zpow2_ofNat]; norm_num
    have hz1 : zpow2 1 = 2 := by
      rw [show (1 : ℤ) = ((1 : ℕ) : ℤ) by norm_num, zpow2_ofNat]; norm_num
    have hz10 : zpow2 10 = 1024 := by
      rw [show (10 : ℤ) = ((10 : ℕ) : ℤ) by norm_num, zpow2_ofNat]; norm_num
    have hz53 : zpow2 53 = ((2 ^ 53 : ℕ) : ℚ) := by
      rw [show (53 : ℤ) = ((53 : ℕ) : ℤ) by norm_num, zpow2_ofNat]
    have hz43 : zpow2 (-43) = 1024 * zpow2 (-53) := by
      rw [show (-43 : ℤ) = 10 + -53 by norm_num, zpow2_add, hz10]
    have hBcap : (b : ℚ) ≤ zpow2 53 := by
      rw [hz53]; exact_mod_cast le_of_lt hb53
    have hinvB : zpow2 (-53) ≤ 1 / (b : ℚ) := by
      rw [zpow2_neg, inv_eq_one_div]
      exact one_div_le_one_div_of_le hbQ hBcap
    constructor
    · -- landscape branch: b ≤ a
      intro hba
      have hx1 : (1 : ℚ) ≤ (a : ℚ) / (b : ℚ) := by
        rw [le_div_iff₀ hbQ, one_mul]
        exact_mod_cast hba
      have hxcap : (a : ℚ) / (b : ℚ) ≤ zpow2 53 := by
        refine le_trans (div_le_self (le_of_lt haQ) ?_) ?_
        · exact_mod_cast hb
        · rw [hz53]; exact_mod_cast le_of_lt ha53
      have he0 : (0 : ℤ) ≤ ratFloorLog2 ((a : ℚ) / (b : ℚ)) :=
        le_ratFloorLog2 _ hx0 0 (by rw [hz0]; exact hx1)
      obtain ⟨v, hflx, hv_lo, hv_cap, _⟩ :=
        fl64_bounded ((a : ℚ) / (b : ℚ)) 53 hx0 hxcap (by omega) (by norm_num)
      have hv1 : (1 : ℚ) ≤ v :=
        le_trans (by rw [← hz0]; exact zpow2_le_iff.mpr he0) hv_lo
      have hv0 : (0 : ℚ) < v := lt_of_lt_of_le one_pos hv1
      have hvne : v ≠ 0 := ne_of_gt hv0
      have hvcap : v ≤ zpow2 53 := hv_cap
      have hy0 : (0 : ℚ) < 1024 / v := by positivity
      have hycap : (1024 : ℚ) / v ≤ zpow2 10 := by
        rw [hz10, div_le_iff₀ hv0]
        nlinarith
      have hylow : zpow2 (-43) ≤ (1024 : ℚ) / v := by
        rw [hz43, zpow2_neg, inv_eq_one_div, mul_one_div,
          div_le_div_iff₀ (zpow2_pos 53) hv0]
        nlinarith [zpow2_pos (53 : ℤ)]
      have hynorm : (-1022 : ℤ) ≤ ratFloorLog2 ((1024 : ℚ) / v) := by
        have := le_ratFloorLog2 _ hy0 (-43) hylow
        omega
      obtain ⟨u, hfly, hu_lo, hu_cap, _⟩ :=
        fl64_bounded ((1024 : ℚ) / v) 10 hy0 hycap hynorm (by norm_num)
      have hu0 : (0 : ℚ) < u := lt_of_lt_of_le (zpow2_pos _) hu_lo
      have hu1024 : u ≤ 1024 := by rw [← hz10]; exact hu_cap
      have hdiv2 : JsNum.div (.num 1024) (.num v) = fl64 ((1024 : ℚ) / v) := by
        simp [JsNum.div, hvne]
      have hge : (JsNum.num v).ge (JsNum.num 1) = true := by
        simp only [JsNum.ge, decide_eq_true_eq]
        exact hv1
      refine ⟨⌊u + 1/2⌋, ?_, ?_, ?_, ?_⟩
      · apply Int.le_floor.mpr
        push_cast
        linarith
      · have hlt : ⌊u + 1/2⌋ < 1025 := by
          apply Int.floor_lt.mpr
          push_cast
          linarith
        omega
      · simp only [parseAspectRatio, if_neg hsne, hlook, hmatch, hwD, hhD, hdiv1, hflx]
        rw [if_pos hge, hdiv2, hfly, JsNum.round_num]
      · rw [hdiv1, hflx, hdiv2, hfly, JsNum.round_num]
    · -- portrait branch: a < b
      intro hab
      have hxle : (a : ℚ) / (b : ℚ) ≤ 1 - zpow2 (-53) := by
        have h1 : (a : ℚ) / (b : ℚ) ≤ 1 - 1 / (b : ℚ) := by
          rw [div_le_iff₀ hbQ]
          have h2 : (1 - 1 / (b : ℚ)) * (b : ℚ) = (b : ℚ) - 1 := by
            field_simp
          rw [h2]
          have h3 : (a : ℚ) + 1 ≤ (b : ℚ) := by exact_mod_cast hab
          linarith
        linarith
      have hxcap : (a : ℚ) / (b : ℚ) ≤ zpow2 0 := by
        rw [hz0]
        linarith [zpow2_pos (-53 : ℤ)]
      have haQ1 : (1 : ℚ) ≤ (a : ℚ) := by exact_mod_cast ha
      have hxlow : zpow2 (-53) ≤ (a : ℚ) / (b : ℚ) := by
        apply le_trans hinvB
        rw [div_le_div_iff₀ hbQ hbQ]
        nlinarith
      have hxnorm : (-1022 : ℤ) ≤ ratFloorLog2 ((a : ℚ) / (b : ℚ)) := by
        have := le_ratFloorLog2 _ hx0 (-53) hxlow
        omega
      obtain ⟨v, hflx, hv_lo, hv_cap, hv_near⟩ :=
        fl64_bounded ((a : ℚ) / (b : ℚ)) 0 hx0 hxcap hxnorm (by norm_num)
      have hv0 : (0 : ℚ) < v := lt_of_lt_of_le (zpow2_pos _) hv_lo
      have he_neg : ratFloorLog2 ((a : ℚ) / (b : ℚ)) ≤ -1 := by
        have hlt1 : (a : ℚ) / (b : ℚ) < zpow2 0 := by
          rw [hz0]
          linarith [zpow2_pos (-53 : ℤ)]
        have := ratFloorLog2_lt _ hx0 0 hlt1
        omega
      have he_low : (-53 : ℤ) ≤ ratFloorLog2 ((a : ℚ) / (b : ℚ)) :=
        le_ratFloorLog2 _ hx0 (-53) hxlow
      have hv_lt1 : v < 1 := by
        have h1 : v - (a : ℚ) / (b : ℚ) ≤ zpow2 (ratFloorLog2 ((a : ℚ) / (b : ℚ)) - 53) :=
          le_trans (le_abs_self _) hv_near
        have h2 : zpow2 (ratFloorLog2 ((a : ℚ) / (b : ℚ)) - 53) ≤ zpow2 (-54) :=
          zpow2_le_iff.mpr (by omega)
        have h3 : zpow2 (-53) = 2 * zpow2 (-54) := by
          rw [show (-53 : ℤ) = 1 + -54 by norm_num, zpow2_add, hz1]
        have h4 : (0 : ℚ) < zpow2 (-54 : ℤ) := zpow2_pos _
        linarith
      have hv53 : zpow2 (-53) ≤ v := by
        apply le_trans _ hv_lo
        exact zpow2_le_iff.mpr (by omega)
      have hge : (JsNum.num v).ge (JsNum.num 1) = false := by
        simp only [JsNum.ge, decide_eq_false_iff_not, not_le]
        exact hv_lt1
      have hmul : JsNum.mul (.num 1024) (.num v) = fl64 (1024 * v) := rfl
      have hy0 : (0 : ℚ) < 1024 * v := by positivity
      have hycap : (1024 : ℚ) * v ≤ zpow2 10 := by
        rw [hz10]
        nlinarith
      have hylow : zpow2 (-43) ≤ (1024 : ℚ) * v := by
        rw [hz43]
        nlinarith [zpow2_pos (-53 : ℤ)]
      have hynorm : (-1022 : ℤ) ≤ ratFloorLog2 ((1024 : ℚ) * v) := by
        have := le_ratFloorLog2 _ hy0 (-43) hylow
        omega
      obtain ⟨u, hfly, hu_lo, hu_cap, _⟩ :=
        fl64_bounded ((1024 : ℚ) * v) 10 hy0 hycap hynorm (by norm_num)
      have hu0 : (0 : ℚ) < u := lt_of_lt_of_le (zpow2_pos _) hu_lo
      have hu1024 : u ≤ 1024 := by rw [← hz10]; exact hu_cap
      refine ⟨⌊u + 1/2⌋, ?_, ?_, ?_, ?_⟩
      · apply Int.le_floor.mpr
        push_cast
        linarith
      · have hlt : ⌊u + 1/2⌋ < 1025 := by
          apply Int.floor_lt.mpr
          push_cast
          linarith
        omega
      · simp only [parseAspectRatio, if_neg hsne, hlook, hmatch, hwD, hhD, hdiv1, hflx]
        rw [if_neg (by simp [hge]), hmul, hfly, JsNum.round_num]
      · rw [hdiv1, hflx, hmul, hfly, JsNum.round_num]
  · exact ⟨by decide, by decide⟩
  · intro s hlook hmatch
    by_cases hs : s = ""
    · simp [parseAspectRatio, hs]
    · simp [parseAspectRatio, hs, hlook, hmatch]

unseal Rat.mul Rat.inv Rat.add Rat.sub in
set_option maxRecDepth 16384 in
set_option maxHeartbeats 2000000 in
set_option exponentiation.threshold 1100 in
/-- C2 counterexample.  The token `"0:5"` is neither a named token nor
a ratio of positive integers, yet the resolver does not return "no
constraint": it matches the `\d+:\d+` regex and yields the degenerate
descriptor 0×1024.  `"2047:2048"` has `a < b` but resolves to the
square 1024×1024 (rounding reaches 1024), not to a portrait shape, so
orientation is not strictly preserved.  And for `"2048:93"` the claimed
formula `round(1024·min/max)` gives `⌊1024·93/2048 + 1/2⌋ = 47`, while
the program's double-precision evaluation of `1024 / (2048 / 93)`
lands just below 46.5 and `Math.round` returns 46. -/
theorem C2_aspect_resolver_counterexample :
    parseAspectRatio (some "0:5") = some ⟨.num 0, .num 1024, "0:5"⟩ ∧
    parseAspectRatio (some "0:5") ≠ none ∧
    parseAspectRatio (some "2047:2048") =
      some ⟨.num 1024, .num 1024, "2047:2048"⟩ ∧
    parseAspectRatio (some "2048:93") =
      some ⟨.num 1024, .num 46, "2048:93"⟩ ∧
    ⌊(1024 * (93 : ℚ) / 2048) + 1/2⌋ = 47 := by
  refine ⟨by decide, by decide, by decide, by decide, ?_⟩
  rw [← ratFloor_eq_intFloor]
  decide

unseal Rat.mul Rat.inv Rat.add Rat.sub in
set_option maxRecDepth 16384 in
set_option maxHeartbeats 2000000 in
set_option exponentiation.threshold 1100 in
/-- C2 witness: the amended theorem applied at the custom token `7:5`
(landscape, 1024×731 — here the double computation agrees with the
exact rounding), at a token matching neither form, and at the named
token `16:9`. -/
theorem C2_aspect_resolver_witness :
    parseAspectRatio (some "7:5") = some ⟨.num 1024, .num 731, "7:5"⟩ ∧
    parseAspectRatio (some "weird") = none ∧
    parseAspectRatio (some "16:9") = some ⟨.num 1024, .num 576, "landscape"⟩ := by
  refine ⟨?_, ?_, ?_⟩
  · obtain ⟨h, _, _, hparse, hcomp⟩ :=
      (C2_aspect_resolver_amended.2.2.1 ['7'] ['5'] (by decide) (by decide)
        (by decide) (by decide) (by decide) (by decide) (by decide) (by decide)
        (by decide)).1 (by decide)
    have hval : (JsNum.div (.num 1024)
        (JsNum.div (.num (digitsToNat ['7'] : ℚ))
          (.num (digitsToNat ['5'] : ℚ)))).round = .num 731 := by decide
    have hq : (731 : ℚ) = ((h : ℤ) : ℚ) := by
      have h2 := hval.symm.trans hcomp
      injection h2 with h3
    have hparse2 : parseAspectRatio (some "7:5") =
        some ⟨.num 1024, .num ((h : ℤ) : ℚ), "7:5"⟩ := hparse
    rw [hparse2, ← hq]
  · exact C2_aspect_resolver_amended.2.2.2.2.1 "weird" (by decide) (by decide)
  · exact C2_aspect_resolver_amended.1 "16:9" ⟨.num 1024, .num 576, "landscape"⟩
      (by decide)

/-! ## Claim C6: canvas synthesizer dimensions -/

/-- A fold of pixel-painting steps never changes the image dimensions. -/
theorem foldl_pixel_dims (l : List Nat) (g : JimpImage → Nat → JimpImage)
    (hg : ∀ im x, (g im x).width = im.width ∧ (g im x).height = im.height) :
    ∀ img : JimpImage,
      ((l.foldl g img).width = img.width ∧ (l.foldl g img).height = img.height) := by
  induction l with
  | nil => exact fun img => ⟨rfl, rfl⟩
  | cons x xs ih =>
    intro img
    simp only [List.foldl_cons]
    exact ⟨(ih (g img x)).1.trans (hg img x).1,
           (ih (g img x)).2.trans (hg img x).2⟩

/-- Painting the border preserves the image dimensions. -/
theorem drawBorder_dims (img : JimpImage) :
    (drawBorder img).width = img.width ∧ (drawBorder img).height = img.height := by
  unfold drawBorder
  have h1 := foldl_pixel_dims (List.range img.width)
    (fun im x => setPixelColor (setPixelColor im 0xFAFAFAFF x 0)
      0xFAFAFAFF x (im.height - 1)) (fun im x => ⟨rfl, rfl⟩) img
  have h2 := foldl_pixel_dims
    (List.range ((List.range img.width).foldl
      (fun im x => setPixelColor (setPixelColor im 0xFAFAFAFF x 0)
        0xFAFAFAFF x (im.height - 1)) img).height)
    (fun im y => setPixelColor (setPixelColor im 0xFAFAFAFF 0 y)
      0xFAFAFAFF (im.width - 1) y) (fun im y => ⟨rfl, rfl⟩)
    ((List.range img.width).foldl
      (fun im x => setPixelColor (setPixelColor im 0xFAFAFAFF x 0)
        0xFAFAFAFF x (im.height - 1)) img)
  exact ⟨h2.1.trans h1.1, h2.2.trans h1.2⟩

/-- A positive integer rational cast back from its numerator. -/
theorem num_toNat_cast_eq (a : ℚ) (hden : a.den = 1) (hpos : 0 < a.num) :
    ((a.num.toNat : ℕ) : ℚ) = a := by
  have h1 : ((a.num.toNat : ℕ) : ℚ) = ((a.num : ℤ) : ℚ) := by
    exact_mod_cast congrArg (fun z : ℤ => (z : ℚ)) (Int.toNat_of_nonneg hpos.le)
  rw [h1, ← Rat.num_div_den a, hden]
  norm_num

set_option maxRecDepth 16384 in
/-- The canned fallback always returns one of the four pre-baked
strings. -/
theorem generateBlankImageSync_mem (cfg : AspectRatioConfig) :
    generateBlankImageSync cfg ∈
      [blankSquareB64, blankLandscapeB64, blankPortraitB64, blankWidescreenB64] := by
  dsimp only [generateBlankImageSync]
  repeat' split
  all_goals decide

/-- Characterization of a successful Jimp construction. -/
theorem jimpNew_eq_some (w h : JsNum) (c : Nat) (img : JimpImage)
    (hw : jimpNew w h c = some img) :
    ∃ qa qb, w = .num qa ∧ h = .num qb ∧
      0 < qa.num ∧ qa.den = 1 ∧ 0 < qb.num ∧ qb.den = 1 ∧
      img = ⟨qa.num.toNat, qb.num.toNat, fun _ _ => c⟩ := by
  rcases w with qa | _ | _
  · rcases h with qb | _ | _
    · simp only [jimpNew] at hw
      split at hw
      · next hguard =>
        obtain ⟨h1, h2, h3, h4⟩ := hguard
        refine ⟨qa, qb, rfl, rfl, h1, h2, h3, h4, ?_⟩
        exact ((Option.some.injEq _ _).mp hw).symm
      · exact Option.noConfusion hw
    · exact Option.noConfusion hw
    · exact Option.noConfusion hw
  · exact Option.noConfusion hw
  · exact Option.noConfusion hw

set_option maxRecDepth 16384 in
/-- The decoded dimensions of the four pre-baked canned blank images. -/
theorem blank_pngDims :
    pngDims (base64DecodeBytes blankSquareB64) = some (100, 100) ∧
    pngDims (base64DecodeBytes blankLandscapeB64) = some (160, 90) ∧
    pngDims (base64DecodeBytes blankPortraitB64) = some (90, 160) ∧
    pngDims (base64DecodeBytes blankWidescreenB64) = some (160, 100) := by
  refine ⟨?_, ?_, ?_, ?_⟩ <;> decide

/-- C6 (amended).  On the live-synthesis path the canvas image has
exactly the descriptor's requested width and height.  On the failure
path (invalid dimensions make the Jimp construction throw) the
substituted pre-baked canned image decodes to one of the four fixed
sizes 100×100, 160×90, 90×160, 160×100 — chosen by nearest-ratio
match, not to the requested size. -/
theorem C6_canvas_dims_amended :
    (∀ (cfg : AspectRatioConfig) (img : JimpImage),
      generateLargeBlankImage cfg = .live img →
      canvasDims (.live img) = some (img.width, img.height) ∧
      JsNum.num (img.width : ℚ) = cfg.width ∧
      JsNum.num (img.height : ℚ) = cfg.height) ∧
    (∀ (cfg : AspectRatioConfig) (s : String),
      generateLargeBlankImage cfg = .canned s →
      canvasDims (.canned s) ∈
        [some (100, 100), some (160, 90), some (90, 160), some (160, 100)]) := by
  constructor
  · intro cfg img hlive
    unfold generateLargeBlankImage at hlive
    rcases hw : jimpNew cfg.width cfg.height 0xFFFFFFFF with _ | image
    · rw [hw] at hlive
      exact absurd hlive (by simp)
    · rw [hw] at hlive
      simp only [CanvasResult.live.injEq] at hlive
      subst hlive
      obtain ⟨qa, qb, hcw, hch, ha1, ha2, hb1, hb2, himg⟩ :=
        jimpNew_eq_some cfg.width cfg.height 0xFFFFFFFF image hw
      subst himg
      obtain ⟨hww, hhh⟩ :=
        drawBorder_dims ⟨qa.num.toNat, qb.num.toNat, fun _ _ => 0xFFFFFFFF⟩
      refine ⟨rfl, ?_, ?_⟩
      · rw [hww, hcw]
        exact congrArg JsNum.num (num_toNat_cast_eq qa ha2 ha1)
      · rw [hhh, hch]
        exact congrArg JsNum.num (num_toNat_cast_eq qb hb2 hb1)
  · intro cfg s hcanned
    unfold generateLargeBlankImage at hcanned
    rcases hw : jimpNew cfg.width cfg.height 0xFFFFFFFF with _ | image
    · rw [hw] at hcanned
      simp only [CanvasResult.canned.injEq] at hcanned
      subst hcanned
      have hmem := generateBlankImageSync_mem cfg
      obtain ⟨h1, h2, h3, h4⟩ := blank_pngDims
      simp only [List.mem_cons, List.mem_singleton, List.not_mem_nil, or_false] at hmem
      rcases hmem with h | h | h | h <;> rw [h] <;>
        simp [canvasDims, h1, h2, h3, h4]
    · rw [hw] at hcanned
      exact absurd hcanned (by simp)

unseal Rat.mul Rat.inv Rat.add Rat.sub in
set_option maxRecDepth 16384 in
set_option exponentiation.threshold 1100 in
/-- C6 counterexample.  The reachable descriptor for token `0:5`
(0×1024) makes the live synthesis fail; the substituted canned image
decodes to 90×160, not to the requested 0×1024 — so on the failure
path the returned image does not have the requested dimensions. -/
theorem C6_canvas_dims_counterexample :
    parseAspectRatio (some "0:5") =
      some ⟨JsNum.num 0, JsNum.num 1024, "0:5"⟩ ∧
    generateLargeBlankImage ⟨JsNum.num 0, JsNum.num 1024, "0:5"⟩ =
      .canned blankPortraitB64 ∧
    canvasDims (.canned blankPortraitB64) = some (90, 160) ∧
    ((90, 160) : ℕ × ℕ) ≠ (0, 1024) := by
  refine ⟨by decide, rfl, by decide, by decide⟩

unseal Rat.mul Rat.inv Rat.add Rat.sub in
/-- C6 witness: the amended theorem applied on the live path at the
square 1024×1024 descriptor and on the canned path at the degenerate
0×1024 descriptor. -/
theorem C6_canvas_dims_witness :
    (JsNum.num ((drawBorder ⟨1024, 1024, fun _ _ => 0xFFFFFFFF⟩).width : ℚ) =
      JsNum.num 1024 ∧
     JsNum.num ((drawBorder ⟨1024, 1024, fun _ _ => 0xFFFFFFFF⟩).height : ℚ) =
      JsNum.num 1024) ∧
    canvasDims (.canned blankPortraitB64) ∈
      [some (100, 100), some (160, 90), some (90, 160), some (160, 100)] := by
  have h1 := C6_canvas_dims_amended.1 ⟨JsNum.num 1024, JsNum.num 1024, "square"⟩
    (drawBorder ⟨1024, 1024, fun _ _ => 0xFFFFFFFF⟩) rfl
  have h2 := C6_canvas_dims_amended.2 ⟨JsNum.num 0, JsNum.num 1024, "0:5"⟩
    blankPortraitB64 rfl
  exact ⟨⟨h1.2.1, h1.2.2⟩, h2⟩

/-! ## Claim C3: outbound payload ordering -/

/-- The value of one caught-or-skipped image resolution. -/
def okOrNone : Except String (Option GPart) → Option GPart
  | .ok p => p
  | .error _ => none

/-- The canvas block the OpenRouter adapter appends when an aspect
descriptor resolved. -/
def orCanvasTail (args : ImageGenerationArgs)
    (enc : JimpImage → String) : List ORBlock :=
  match parseAspectRatio args.aspect_ratio with
  | some cfg => [.imageUrl ("data:image/png;base64," ++ canvasString enc cfg)]
  | none => []

/-- The canvas part the Gemini adapter appends when an aspect
descriptor resolved. -/
def gCanvasTail (args : ImageGenerationArgs)
    (enc : JimpImage → String) : List GPart :=
  match parseAspectRatio args.aspect_ratio with
  | some cfg => [.inlineData "image/png" (canvasString enc cfg)]
  | none => []

/-- The OpenRouter push-loop over optional blocks is append of the
`filterMap`. -/
theorem foldl_pushOpt (l : List ImageInput) (acc : List ORBlock) :
    l.foldl (fun acc2 image =>
        match OpenRouterProvider.imageBlock image with
        | some b => acc2 ++ [b]
        | none => acc2) acc
      = acc ++ l.filterMap OpenRouterProvider.imageBlock := by
  induction l generalizing acc with
  | nil => simp
  | cons x xs ih =>
    simp only [List.foldl_cons, List.filterMap_cons]
    cases hf : OpenRouterProvider.imageBlock x
    · simp [hf, ih]
    · simp [hf, ih, List.append_assoc]

/-- When the Gemini reference-image loop succeeds, its output is the
in-order `filterMap` of the per-image resolutions. -/
theorem imageParts_ok (env : GeminiEnv) (imgs : List ImageInput)
    (l : List GPart) (h : GeminiProvider.imageParts env imgs = .ok l) :
    l = imgs.filterMap (fun img => okOrNone (GeminiProvider.imagePart env img)) := by
  induction imgs generalizing l with
  | nil =>
    simp only [GeminiProvider.imageParts] at h
    cases h
    rfl
  | cons img rest ih =>
    simp only [GeminiProvider.imageParts] at h
    cases hp : GeminiProvider.imagePart env img with
    | error e => rw [hp] at h; exact Except.noConfusion h
    | ok p =>
      rw [hp] at h
      cases ht : GeminiProvider.imageParts env rest with
      | error e =>
        rw [ht] at h
        exact Except.noConfusion h
      | ok tail =>
        rw [ht] at h
        cases h
        rw [List.filterMap_cons]
        cases p with
        | none => simpa [okOrNone, hp] using ih tail ht
        | some x => simpa [okOrNone, hp] using ih tail ht

/-- C3.  In both adapters' outbound payloads the first element is the
single text part holding the composed prompt; the reference images
follow in their original order with unusable ones skipped (the
`filterMap` of the per-image resolution); and the synthesized canvas,
when an aspect descriptor resolved, is appended strictly last. -/
theorem C3_payload_order :
    (∀ (args : ImageGenerationArgs) (enc : JimpImage → String),
      OpenRouterProvider.buildContent args enc =
        ORBlock.text (OpenRouterProvider.buildPrompt args
            (parseAspectRatio args.aspect_ratio))
          :: ((args.images.getD []).filterMap OpenRouterProvider.imageBlock
              ++ orCanvasTail args enc)) ∧
    (∀ (args : ImageGenerationArgs) (env : GeminiEnv) (l : List GPart),
      GeminiProvider.buildParts args env = .ok l →
      l = GPart.text (GeminiProvider.buildPrompt args
            (parseAspectRatio args.aspect_ratio))
          :: ((args.images.getD []).filterMap
                (fun img => okOrNone (GeminiProvider.imagePart env img))
              ++ gCanvasTail args env.jimpEncode)) := by
  constructor
  · intro args enc
    unfold OpenRouterProvider.buildContent orCanvasTail
    cases hi : args.images with
    | none =>
      dsimp only
      cases hcfg : parseAspectRatio args.aspect_ratio <;> simp [hcfg]
    | some imgs =>
      dsimp only
      by_cases hlen : 0 < imgs.length
      · rw [if_pos hlen, foldl_pushOpt]
        cases hcfg : parseAspectRatio args.aspect_ratio <;> simp [hcfg]
      · rw [if_neg hlen]
        have : imgs = [] := List.length_eq_zero.mp (Nat.eq_zero_of_not_pos hlen)
        subst this
        cases hcfg : parseAspectRatio args.aspect_ratio <;> simp [hcfg]
  · intro args env l h
    unfold GeminiProvider.buildParts at h
    cases hi : args.images with
    | none =>
      rw [hi] at h
      dsimp only at h
      cases hcfg : parseAspectRatio args.aspect_ratio <;>
        rw [hcfg] at h <;> cases h <;> simp [gCanvasTail, hcfg]
    | some imgs =>
      rw [hi] at h
      dsimp only at h
      by_cases hlen : 0 < imgs.length
      · rw [if_pos hlen] at h
        cases hparts : GeminiProvider.imageParts env imgs with
        | error e =>
          rw [hparts] at h
          cases hcfg : parseAspectRatio args.aspect_ratio <;>
            rw [hcfg] at h <;> exact Except.noConfusion h
        | ok ps =>
          rw [hparts] at h
          have hps := imageParts_ok env imgs ps hparts
          cases hcfg : parseAspectRatio args.aspect_ratio <;>
            rw [hcfg] at h <;> cases h <;> simp [gCanvasTail, hcfg, hps]
      · rw [if_neg hlen] at h
        have : imgs = [] := List.length_eq_zero.mp (Nat.eq_zero_of_not_pos hlen)
        subst this
        cases hcfg : parseAspectRatio args.aspect_ratio <;>
          rw [hcfg] at h <;> cases h <;> simp [gCanvasTail, hcfg]

/-- Concrete arguments for the C3 witness: one usable base64 reference
image, one sourceless (skipped) image, and a square aspect token. -/
def c3Args : ImageGenerationArgs :=
  { prompt := "p",
    images := some [⟨none, none, some "B", none, none⟩,
                    ⟨none, none, none, none, none⟩],
    aspect_ratio := some "square" }

/-- Concrete Gemini environment for the C3 witness. -/
def c3Env : GeminiEnv :=
  { readFile := fun _ => .error "no file",
    fetchImg := fun _ => .netError "no fetch",
    jimpEncode := fun _ => "E",
    http := .netError "unused" }

set_option maxRecDepth 8192 in
/-- C3 witness: the Gemini half of the ordering theorem applied at a
concrete request whose parts build succeeds — text part first, the
usable reference image next (sourceless one skipped), canvas last. -/
theorem C3_payload_order_witness :
    ([GPart.text "p Generate the image to fill the entire square format (1:1 aspect ratio) canvas provided by the blank image.",
      GPart.inlineData "image/png" "B", GPart.inlineData "image/png" "E"] :
        List GPart) =
      GPart.text (GeminiProvider.buildPrompt c3Args
          (parseAspectRatio c3Args.aspect_ratio))
        :: ((c3Args.images.getD []).filterMap
              (fun img => okOrNone (GeminiProvider.imagePart c3Env img))
            ++ gCanvasTail c3Args c3Env.jimpEncode) :=
  C3_payload_order.2 c3Args c3Env _ rfl

/-! ## Claim C7: source-resolution priority in the Gemini adapter -/

/-- Concrete environment for C7: reading the path would succeed and
yield JPEG file data, fetching the URL would succeed too. -/
def c7Env : GeminiEnv :=
  { readFile := fun _ => .ok ⟨"FILEDATA", "image/jpeg"⟩,
    fetchImg := fun _ => .response true (some "image/gif") "URLDATA",
    jimpEncode := fun _ => "",
    http := .netError "unused" }

/-- C7 counterexample.  A reference image with all three sources set
resolves to its inline base64 payload, not to the file read the
claimed path-first priority would produce. -/
theorem C7_source_priority_counterexample :
    GeminiProvider.imagePart c7Env ⟨some "./a.png", some "http://u", some "B", none, none⟩
      = .ok (some (.inlineData "image/png" "B")) ∧
    GPart.inlineData "image/png" "B" ≠ .inlineData "image/jpeg" "FILEDATA" := by
  exact ⟨rfl, by decide⟩

/-- C7 (amended).  The source used for a reference image's inline part
follows the priority: inline base64 first, then local path (read via
`readImageFileAsBase64`), then remote URL (fetched); an image with no
source yields no part. -/
theorem C7_source_priority_amended :
    (∀ (env : GeminiEnv) (img : ImageInput), jsTruthy img.base64 = true →
      GeminiProvider.imagePart env img =
        .ok (some (.inlineData (jsOrS img.mimeType "image/png")
          (stripDataUriPrefix (img.base64.getD ""))))) ∧
    (∀ (env : GeminiEnv) (img : ImageInput), jsTruthy img.base64 = false →
      jsTruthy img.path = true →
      GeminiProvider.imagePart env img =
        (env.readFile (img.path.getD "")).map (fun fd =>
          some (.inlineData (jsOrS img.mimeType fd.mimeType) fd.base64))) ∧
    (∀ (env : GeminiEnv) (img : ImageInput), jsTruthy img.base64 = false →
      jsTruthy img.path = false → jsTruthy img.url = true →
      GeminiProvider.imagePart env img =
        (GeminiProvider.fetchImageAsBase64 env (img.url.getD "")).map (fun fd =>
          some (.inlineData fd.mimeType fd.base64))) ∧
    (∀ (env : GeminiEnv) (img : ImageInput), jsTruthy img.base64 = false →
      jsTruthy img.path = false → jsTruthy img.url = false →
      GeminiProvider.imagePart env img = .ok none) := by
  refine ⟨?_, ?_, ?_, ?_⟩
  · intro env img hb
    simp [GeminiProvider.imagePart, hb]
  · intro env img hb hp
    simp [GeminiProvider.imagePart, hb, hp]
  · intro env img hb hp hu
    simp [GeminiProvider.imagePart, hb, hp, hu]
  · intro env img hb hp hu
    simp [GeminiProvider.imagePart, hb, hp, hu]

/-- C7 witness: the amended priority applied at concrete images for
each of the four cases. -/
theorem C7_source_priority_witness :
    GeminiProvider.imagePart c7Env ⟨some "./a.png", some "http://u", some "D", none, none⟩
      = .ok (some (.inlineData "image/png" "D")) ∧
    GeminiProvider.imagePart c7Env ⟨some "./a.png", some "http://u", none, none, none⟩
      = .ok (some (.inlineData "image/jpeg" "FILEDATA")) ∧
    GeminiProvider.imagePart c7Env ⟨none, some "http://u", none, none, none⟩
      = .ok (some (.inlineData "image/gif" "URLDATA")) ∧
    GeminiProvider.imagePart c7Env ⟨none, none, none, some "image/png", some "d"⟩
      = .ok none := by
  refine ⟨?_, ?_, ?_, ?_⟩
  · have h := C7_source_priority_amended.1 c7Env
      ⟨some "./a.png", some "http://u", some "D", none, none⟩ (by decide)
    exact h.trans rfl
  · have h := C7_source_priority_amended.2.1 c7Env
      ⟨some "./a.png", some "http://u", none, none, none⟩ (by decide) (by decide)
    exact h.trans rfl
  · have h := C7_source_priority_amended.2.2.1 c7Env
      ⟨none, some "http://u", none, none, none⟩ (by decide) (by decide) (by decide)
    exact h.trans rfl
  · exact C7_source_priority_amended.2.2.2 c7Env
      ⟨none, none, none, some "image/png", some "d"⟩ (by decide) (by decide) (by decide)

/-! ## Claim C10: path-only reference images differ between providers -/

/-- C10.  A reference image whose only source is a local path is
silently omitted from the OpenRouter payload (no content block), while
the Gemini adapter resolves it by reading the file; consequently the
same request transmits different numbers of reference images depending
on the selected provider (payload sizes 1 vs 2 for a one-image
request). -/
theorem C10_path_only_divergence :
    (∀ (p : String) (mt d : Option String), p ≠ "" →
      OpenRouterProvider.imageBlock ⟨some p, none, none, mt, d⟩ = none) ∧
    (∀ (env : GeminiEnv) (p : String) (mt d : Option String), p ≠ "" →
      GeminiProvider.imagePart env ⟨some p, none, none, mt, d⟩ =
        (env.readFile p).map (fun fd =>
          some (.inlineData (jsOrS mt fd.mimeType) fd.base64))) ∧
    (∀ (env : GeminiEnv) (enc : JimpImage → String) (p : String) (fd : FileData),
      p ≠ "" → env.readFile p = .ok fd →
      (OpenRouterProvider.buildContent
          { prompt := "q", images := some [⟨some p, none, none, none, none⟩] }
          enc).length = 1 ∧
      GeminiProvider.buildParts
          { prompt := "q", images := some [⟨some p, none, none, none, none⟩] }
          env =
        .ok [GPart.text "q", .inlineData fd.mimeType fd.base64]) := by
  refine ⟨?_, ?_, ?_⟩
  · intro p mt d hp
    simp [OpenRouterProvider.imageBlock, jsTruthy]
  · intro env p mt d hp
    simp [GeminiProvider.imagePart, jsTruthy, hp]
  · intro env enc p fd hp hrf
    constructor
    · simp [OpenRouterProvider.buildContent, OpenRouterProvider.imageBlock,
        jsTruthy, parseAspectRatio]
    · simp [GeminiProvider.buildParts, GeminiProvider.imageParts,
        GeminiProvider.imagePart, jsTruthy, hp, hrf, parseAspectRatio,
        GeminiProvider.buildPrompt, jsOrS, Except.map]

/-- Concrete Gemini environment for the C10 witness. -/
def c10Env : GeminiEnv :=
  { readFile := fun _ => .ok ⟨"D", "image/png"⟩,
    fetchImg := fun _ => .netError "no fetch",
    jimpEncode := fun _ => "",
    http := .netError "unused" }

/-- C10 witness: the divergence realized at a concrete path-only
image. -/
theorem C10_path_only_divergence_witness :
    OpenRouterProvider.imageBlock ⟨some "./r.png", none, none, none, none⟩ = none ∧
    GeminiProvider.imagePart c10Env ⟨some "./r.png", none, none, none, none⟩ =
      .ok (some (.inlineData "image/png" "D")) ∧
    (OpenRouterProvider.buildContent
        { prompt := "q", images := some [⟨some "./r.png", none, none, none, none⟩] }
        (fun _ => "")).length = 1 ∧
    GeminiProvider.buildParts
        { prompt := "q", images := some [⟨some "./r.png", none, none, none, none⟩] }
        c10Env =
      .ok [GPart.text "q", .inlineData "image/png" "D"] := by
  refine ⟨?_, ?_, ?_, ?_⟩
  · exact C10_path_only_divergence.1 "./r.png" none none (by decide)
  · exact (C10_path_only_divergence.2.1 c10Env "./r.png" none none (by decide)).trans rfl
  · exact (C10_path_only_divergence.2.2 c10Env (fun _ => "") "./r.png"
      ⟨"D", "image/png"⟩ (by decide) rfl).1
  · exact (C10_path_only_divergence.2.2 c10Env (fun _ => "") "./r.png"
      ⟨"D", "image/png"⟩ (by decide) rfl).2

/-! ## Claim C4: failure conversion at the adapter boundary -/

/-- Concrete arguments for the C4 theorems. -/
def c4Args : ImageGenerationArgs := { prompt := "p" }

/-- Concrete OpenRouter environment whose fetch rejects. -/
def c4OREnv : OREnv := { jimpEncode := fun _ => "", http := .netError "x" }

/-- Concrete Gemini environment whose fetch rejects. -/
def c4GEnv : GeminiEnv :=
  { readFile := fun _ => .error "nofile",
    fetchImg := fun _ => .netError "nofetch",
    jimpEncode := fun _ => "",
    http := .netError "x" }

/-- C4 counterexample.  With the credential unset, each adapter's
`generateImage` throws its missing-key error to the caller (the guard
sits before the `try` block), so an exception does propagate for that
environment configuration. -/
theorem C4_adapter_errors_counterexample :
    OpenRouterProvider.generateImage none c4Args c4OREnv =
      .error "OPENROUTER_API_KEY environment variable is not set" ∧
    GeminiProvider.generateImage none c4Args c4GEnv =
      .error "GEMINI_API_KEY environment variable is not set" :=
  ⟨rfl, rfl⟩

/-- C4 (amended).  Provided the adapter's credential is configured
(non-empty), `generateImage` never propagates an exception: it always
returns a result, and every network failure, non-2xx response, and
parsing/resolution exception is converted into a `GenerationResult`
with `success = false` and the thrown condition's message in `error`.
With the credential missing, `generateImage` throws before the `try`. -/
theorem C4_adapter_errors_amended :
    (∀ key args env, jsTruthy key = true →
      ∃ r, OpenRouterProvider.generateImage key args env = .ok r ∧
        (r.success = true ∨ (r.success = false ∧ r.error.isSome = true))) ∧
    (∀ key args (enc : JimpImage → String) m, jsTruthy key = true →
      OpenRouterProvider.generateImage key args ⟨enc, .netError m⟩ =
        .ok (OpenRouterProvider.failureResult args m)) ∧
    (∀ key args (enc : JimpImage → String) status errText body,
      jsTruthy key = true →
      OpenRouterProvider.generateImage key args
          ⟨enc, .response false status errText body⟩ =
        .ok (OpenRouterProvider.failureResult args
          ("OpenRouter API error: " ++ toString status ++ " - " ++ errText))) ∧
    (∀ key args (enc : JimpImage → String) status errText m,
      jsTruthy key = true →
      OpenRouterProvider.generateImage key args
          ⟨enc, .response true status errText (.error m)⟩ =
        .ok (OpenRouterProvider.failureResult args m)) ∧
    (∀ args m, (OpenRouterProvider.failureResult args m).success = false ∧
      (OpenRouterProvider.failureResult args m).error = some m) ∧
    (∀ key args env, jsTruthy key = true →
      ∃ r, GeminiProvider.generateImage key args env = .ok r ∧
        (r.success = true ∨ (r.success = false ∧ r.error.isSome = true))) ∧
    (∀ key args env m, jsTruthy key = true →
      GeminiProvider.buildParts args env = .error m →
      GeminiProvider.generateImage key args env =
        .ok (GeminiProvider.failureResult args m)) ∧
    (∀ key args env m ps, jsTruthy key = true →
      env.http = HttpOutcome.netError m →
      GeminiProvider.buildParts args env = .ok ps →
      GeminiProvider.generateImage key args env =
        .ok (GeminiProvider.failureResult args m)) ∧
    (∀ key args env status errText body ps, jsTruthy key = true →
      env.http = HttpOutcome.response false status errText body →
      GeminiProvider.buildParts args env = .ok ps →
      GeminiProvider.generateImage key args env =
        .ok (GeminiProvider.failureResult args
          ("Gemini API error: " ++ toString status ++ " - " ++ errText))) ∧
    (∀ key args env status errText m ps, jsTruthy key = true →
      env.http = HttpOutcome.response true status errText (Except.error m) →
      GeminiProvider.buildParts args env = .ok ps →
      GeminiProvider.generateImage key args env =
        .ok (GeminiProvider.failureResult args m)) ∧
    (∀ args m, (GeminiProvider.failureResult args m).success = false ∧
      (GeminiProvider.failureResult args m).error = some m) := by
  refine ⟨?_, ?_, ?_, ?_, ?_, ?_, ?_, ?_, ?_, ?_, ?_⟩
  · intro key args env hk
    rcases env with ⟨enc, http⟩
    unfold OpenRouterProvider.generateImage
    rw [if_neg (by simp [hk])]
    cases http with
    | netError m => exact ⟨_, rfl, Or.inr ⟨rfl, rfl⟩⟩
    | response ok status errText body =>
      cases ok with
      | false => exact ⟨_, rfl, Or.inr ⟨rfl, rfl⟩⟩
      | true =>
        cases body with
        | error m => exact ⟨_, rfl, Or.inr ⟨rfl, rfl⟩⟩
        | ok data =>
          rcases data with ⟨choices, usage⟩
          cases choices with
          | nil => exact ⟨_, rfl, Or.inr ⟨rfl, rfl⟩⟩
          | cons choice rest => exact ⟨_, rfl, Or.inl rfl⟩
  · intro key args enc m hk
    unfold OpenRouterProvider.generateImage
    rw [if_neg (by simp [hk])]
  · intro key args enc status errText body hk
    unfold OpenRouterProvider.generateImage
    rw [if_neg (by simp [hk])]
    exact rfl
  · intro key args enc status errText m hk
    unfold OpenRouterProvider.generateImage
    rw [if_neg (by simp [hk])]
    exact rfl
  · intro args m
    exact ⟨rfl, rfl⟩
  · intro key args env hk
    unfold GeminiProvider.generateImage
    rw [if_neg (by simp [hk])]
    cases hbp : GeminiProvider.buildParts args env with
    | error m => exact ⟨_, rfl, Or.inr ⟨rfl, rfl⟩⟩
    | ok ps =>
      cases env.http with
      | netError m => exact ⟨_, rfl, Or.inr ⟨rfl, rfl⟩⟩
      | response ok status errText body =>
        cases ok with
        | false => exact ⟨_, rfl, Or.inr ⟨rfl, rfl⟩⟩
        | true =>
          cases body with
          | error m => exact ⟨_, rfl, Or.inr ⟨rfl, rfl⟩⟩
          | ok data => exact ⟨_, rfl, Or.inl rfl⟩
  · intro key args env m hk hbp
    unfold GeminiProvider.generateImage
    rw [if_neg (by simp [hk]), hbp]
  · intro key args env m ps hk hhttp hbp
    unfold GeminiProvider.generateImage
    rw [if_neg (by simp [hk]), hbp, hhttp]
  · intro key args env status errText body ps hk hhttp hbp
    unfold GeminiProvider.generateImage
    rw [if_neg (by simp [hk]), hbp, hhttp]
    exact rfl
  · intro key args env status errText m ps hk hhttp hbp
    unfold GeminiProvider.generateImage
    rw [if_neg (by simp [hk]), hbp, hhttp]
    exact rfl
  · intro args m
    exact ⟨rfl, rfl⟩

/-- C4 witness: a network failure with the key configured produces
`success = false` with the message captured, for both adapters. -/
theorem C4_adapter_errors_witness :
    OpenRouterProvider.generateImage (some "k") c4Args c4OREnv =
      .ok (OpenRouterProvider.failureResult c4Args "x") ∧
    GeminiProvider.generateImage (some "k") c4Args c4GEnv =
      .ok (GeminiProvider.failureResult c4Args "x") ∧
    (OpenRouterProvider.failureResult c4Args "x").success = false ∧
    (OpenRouterProvider.failureResult c4Args "x").error = some "x" := by
  refine ⟨?_, ?_, ?_, ?_⟩
  · exact C4_adapter_errors_amended.2.1 (some "k") c4Args (fun _ => "") "x"
      (by decide)
  · exact C4_adapter_errors_amended.2.2.2.2.2.2.2.1 (some "k") c4Args c4GEnv "x"
      [GPart.text "p"] (by decide) rfl rfl
  · exact (C4_adapter_errors_amended.2.2.2.2.1 c4Args "x").1
  · exact (C4_adapter_errors_amended.2.2.2.2.1 c4Args "x").2

/-! ## Claim C8: 2xx responses with no extractable images -/

/-- C8 counterexample.  A 2xx response whose parsed body has an empty
`choices` array makes `data.choices[0].message` throw; the adapter
returns `success = false` with the TypeError's message — not
`success = true` with an empty image list.  So the claim fails for
this 2xx body shape. -/
theorem C8_empty_images_counterexample :
    OpenRouterProvider.generateImage (some "k") { prompt := "p" }
        ⟨fun _ => "", .response true 200 "" (.ok { choices := [] })⟩ =
      .ok { success := false, provider := "OpenRouter", model := OR_GEMINI_MODEL,
            prompt := "p",
            error := some "Cannot read properties of undefined (reading 'message')" } :=
  rfl

/-- C8 (amended).  For every 2xx response whose body parses into the
expected envelope, absence of images is a valid outcome: the OpenRouter
adapter returns `success = true` with `images` exactly the (possibly
empty) extraction whenever the body has at least one choice, and the
Gemini adapter does so for every parsed body; bodies with no or empty
`candidates`, or a sole choice with neither an `images` array nor
truthy content, extract an empty list.  Body shapes that break the
envelope (no choices, unparseable JSON) surface as `success = false`
instead. -/
theorem C8_empty_images_amended :
    (∀ key args (enc : JimpImage → String) status errText
        (data : ORBody) choice rest,
      jsTruthy key = true → data.choices = choice :: rest →
      OpenRouterProvider.generateImage key args
          ⟨enc, .response true status errText (.ok data)⟩ =
        .ok { success := true, provider := "OpenRouter",
              model := OR_GEMINI_MODEL, prompt := args.prompt,
              images := some (OpenRouterProvider.extractImages choice.message),
              message := some (jsOrS choice.message.content
                "Image generated successfully"),
              usage := data.usage.map (fun u =>
                ⟨u.prompt_tokens, u.completion_tokens, u.total_tokens⟩) }) ∧
    (∀ key args env status errText (data : GeminiBody) ps,
      jsTruthy key = true →
      env.http = HttpOutcome.response true status errText (Except.ok data) →
      GeminiProvider.buildParts args env = .ok ps →
      GeminiProvider.generateImage key args env =
        .ok { success := true, provider := "Gemini Direct", model := G_MODEL,
              prompt := args.prompt,
              images := some (GeminiProvider.extractImages data),
              message := some "Image generated successfully",
              usage := data.usageMetadata.map (fun u =>
                ⟨u.promptTokenCount, u.candidatesTokenCount,
                 u.totalTokenCount⟩) }) ∧
    (∀ u, GeminiProvider.extractImages ⟨none, u⟩ = []) ∧
    (∀ u, GeminiProvider.extractImages ⟨some [], u⟩ = []) ∧
    (∀ content, jsTruthy content = false →
      OpenRouterProvider.extractImages ⟨none, content⟩ = []) := by
  refine ⟨?_, ?_, ?_, ?_, ?_⟩
  · intro key args enc status errText data choice rest hk hch
    rcases data with ⟨choices, usage⟩
    cases hch
    unfold OpenRouterProvider.generateImage
    rw [if_neg (by simp [hk])]
    exact rfl
  · intro key args env status errText data ps hk hhttp hbp
    unfold GeminiProvider.generateImage
    rw [if_neg (by simp [hk]), hbp, hhttp]
    exact rfl
  · intro u
    rfl
  · intro u
    rfl
  · intro content hc
    unfold OpenRouterProvider.extractImages
    simp [hc]

/-- C8 witness: the amended theorem applied at concrete 2xx responses
from which no image can be extracted — both adapters return
`success = true` with an empty image list. -/
theorem C8_empty_images_witness :
    OpenRouterProvider.generateImage (some "k") { prompt := "p" }
        ⟨fun _ => "", .response true 200 "" (.ok { choices := [⟨⟨none, none⟩⟩] })⟩ =
      .ok { success := true, provider := "OpenRouter", model := OR_GEMINI_MODEL,
            prompt := "p", images := some [],
            message := some "Image generated successfully", usage := none } ∧
    GeminiProvider.generateImage (some "k") { prompt := "p" }
        { readFile := fun _ => .error "nofile",
          fetchImg := fun _ => .netError "nofetch",
          jimpEncode := fun _ => "",
          http := .response true 200 "" (.ok { candidates := none }) } =
      .ok { success := true, provider := "Gemini Direct", model := G_MODEL,
            prompt := "p", images := some [],
            message := some "Image generated successfully", usage := none } := by
  constructor
  · exact (C8_empty_images_amended.1 (some "k") { prompt := "p" } (fun _ => "")
      200 "" { choices := [⟨⟨none, none⟩⟩] } ⟨⟨none, none⟩⟩ [] (by decide)
      rfl).trans rfl
  · exact (C8_empty_images_amended.2.1 (some "k") { prompt := "p" }
      { readFile := fun _ => .error "nofile",
        fetchImg := fun _ => .netError "nofetch",
        jimpEncode := fun _ => "",
        http := .response true 200 "" (.ok { candidates := none }) }
      200 "" { candidates := none } [GPart.text "p"] (by decide) rfl rfl).trans rfl

/-! ## Claim C9: the file persister -/

/-- A constant-function `Except.map` producing `.ok` pins its value. -/
theorem except_map_const_ok {α : Type} {fp : α} {res : Option α}
    (e : Except String Unit)
    (h : Except.map (fun _ => some fp) e = Except.ok res) : res = some fp := by
  cases e with
  | ok u => cases h; rfl
  | error m => exact Except.noConfusion h

/-- A successful `writeOut` returns exactly the documented path shape. -/
theorem writeOut_ok (env : SaveEnv) (count i : Nat) (base ext : String)
    (buffer : List Nat) (p : String)
    (h : writeOut env count i base ext buffer = .ok (some p)) :
    p = "generated_images/"
      ++ (if 1 < count then
            sanitizeFilename (jsOrSS base "generated_image") ++ "_"
              ++ dashTimestamp (env.isoTimestamp i) ++ "_"
              ++ toString (i + 1) ++ "." ++ ext
          else
            sanitizeFilename (jsOrSS base "generated_image") ++ "_"
              ++ dashTimestamp (env.isoTimestamp i) ++ "." ++ ext) := by
  unfold writeOut at h
  have h2 := except_map_const_ok _ h
  exact ((Option.some.injEq _ _).mp h2).symm ▸ rfl

/-- A successful `saveStep` produces a path of the documented shape,
for some extension. -/
theorem saveStep_ok_shape (env : SaveEnv) (count i : Nat)
    (image : GeneratedImage) (base p : String)
    (h : saveStep env count i image base = .ok (some p)) :
    ∃ ext, p = "generated_images/"
      ++ (if 1 < count then
            sanitizeFilename (jsOrSS base "generated_image") ++ "_"
              ++ dashTimestamp (env.isoTimestamp i) ++ "_"
              ++ toString (i + 1) ++ "." ++ ext
          else
            sanitizeFilename (jsOrSS base "generated_image") ++ "_"
              ++ dashTimestamp (env.isoTimestamp i) ++ "." ++ ext) := by
  unfold saveStep at h
  by_cases h1 : image.type = "base64" ∧ jsTruthy image.data = true
  · rw [if_pos h1] at h
    exact ⟨_, writeOut_ok env count i base _ _ p h⟩
  · rw [if_neg h1] at h
    by_cases h2 : image.type = "url" ∧ jsTruthy image.url = true
    · rw [if_pos h2] at h
      cases hf : env.fetchUrl (image.url.getD "") with
      | netError m =>
        rw [hf] at h
        exact Except.noConfusion h
      | response ok contentType bytes =>
        rw [hf] at h
        cases ok with
        | false => exact Except.noConfusion h
        | true =>
          simp only [Bool.not_true, if_neg] at h
          exact ⟨_, writeOut_ok env count i base _ _ p h⟩
    · rw [if_neg h2] at h
      exact Option.noConfusion ((Except.ok.injEq _ _).mp h)

/-- The save loop returns exactly the successfully written paths, in
order: individual decode/fetch/write failures and sourceless images
are skipped without aborting the remaining images. -/
theorem saveLoop_eq_filterMap (env : SaveEnv) (count : Nat) (base : String) :
    ∀ (i : Nat) (images : List GeneratedImage),
      saveLoop env count base i images =
        (images.enumFrom i).filterMap (fun ji =>
          match saveStep env count ji.1 ji.2 base with
          | .ok (some path) => some path
          | _ => none) := by
  intro i images
  induction images generalizing i with
  | nil => rfl
  | cons image rest ih =>
    simp only [saveLoop, List.enumFrom, List.filterMap_cons]
    cases hs : saveStep env count i image base with
    | error e => simp [hs, ih]
    | ok o =>
      cases o with
      | none => simp [hs, ih]
      | some path => simp [hs, ih]

/-- Every character the sanitizer emits is in the safe subset. -/
theorem sanitizeAux_chars (l : List Char) :
    ∀ (b : Bool) (c : Char), c ∈ sanitizeAux b l →
      (('a' ≤ c ∧ c ≤ 'z') ∨ ('A' ≤ c ∧ c ≤ 'Z') ∨ ('0' ≤ c ∧ c ≤ '9')
        ∨ c = '_' ∨ c = '-') := by
  induction l with
  | nil => intro b c hc; exact absurd hc (by simp [sanitizeAux])
  | cons x rest ih =>
    intro b c hc
    unfold sanitizeAux at hc
    by_cases hx : ('a' ≤ x ∧ x ≤ 'z') ∨ ('A' ≤ x ∧ x ≤ 'Z') ∨ ('0' ≤ x ∧ x ≤ '9')
        ∨ x = '_' ∨ x = '-'
    · rw [if_pos hx] at hc
      rcases List.mem_cons.mp hc with hcx | hcr
      · exact hcx ▸ hx
      · exact ih false c hcr
    · rw [if_neg hx] at hc
      cases b with
      | true => exact ih true c hc
      | false =>
        simp only [Bool.false_eq_true, if_neg, ite_false] at hc
        rcases List.mem_cons.mp hc with hcx | hcr
        · subst hcx
          exact Or.inr (Or.inr (Or.inr (Or.inl rfl)))
        · exact ih true c hcr

/-- C9.  `saveImages` never raises for an individual image's failure:
once the output directory is created it returns exactly the list of
successfully written paths in order; each written filename is the
sanitized base plus timestamp, with a 1-based index suffix exactly when
the input list has more than one image; and the sanitized base uses
only the safe character subset capped at 64 characters. -/
theorem C9_save_images :
    (∀ env images base, env.mkdir = .ok () →
      saveImages env images base =
        .ok ((images.enumFrom 0).filterMap (fun ji =>
          match saveStep env images.length ji.1 ji.2 base with
          | .ok (some path) => some path
          | _ => none))) ∧
    (∀ env count i image base p,
      saveStep env count i image base = .ok (some p) →
      ∃ ext, p = "generated_images/"
        ++ (if 1 < count then
              sanitizeFilename (jsOrSS base "generated_image") ++ "_"
                ++ dashTimestamp (env.isoTimestamp i) ++ "_"
                ++ toString (i + 1) ++ "." ++ ext
            else
              sanitizeFilename (jsOrSS base "generated_image") ++ "_"
                ++ dashTimestamp (env.isoTimestamp i) ++ "." ++ ext)) ∧
    (∀ s, (sanitizeFilename s).toList.length ≤ 64 ∧
      ∀ c ∈ (sanitizeFilename s).toList,
        (('a' ≤ c ∧ c ≤ 'z') ∨ ('A' ≤ c ∧ c ≤ 'Z') ∨ ('0' ≤ c ∧ c ≤ '9')
          ∨ c = '_' ∨ c = '-')) := by
  refine ⟨?_, ?_, ?_⟩
  · intro env images base hmk
    unfold saveImages
    rw [hmk, saveLoop_eq_filterMap]
  · intro env count i image base p h
    exact saveStep_ok_shape env count i image base p h
  · intro s
    constructor
    · show ((sanitizeAux false s.toList).take 64).length ≤ 64
      rw [List.length_take]
      exact min_le_left _ _
    · intro c hc
      have hc2 : c ∈ sanitizeAux false s.toList :=
        List.mem_of_mem_take hc
      exact sanitizeAux_chars s.toList false c hc2

/-- Concrete persister environment for the C9 witness: the second
image's write fails, the third has no usable source. -/
def c9Env : SaveEnv :=
  { mkdir := .ok (),
    fetchUrl := fun _ => .netError "down",
    write := fun path _ => if path = "generated_images/img_T1_2.png"
      then .error "disk full" else .ok (),
    isoTimestamp := fun _ => "T1" }

set_option maxRecDepth 8192 in
/-- C9 witness: a three-image batch (one saved, one failed write, one
sourceless) returns exactly the single successful path, with the
1-based index suffix present because the input list has more than one
image. -/
theorem C9_save_images_witness :
    saveImages c9Env
        [⟨"base64", some "QUJD", none, none, some "png"⟩,
         ⟨"base64", some "REVG", none, none, some "png"⟩,
         ⟨"unknown", none, none, none, none⟩] "img" =
      .ok ["generated_images/img_T1_1.png"] ∧
    (∃ ext, "generated_images/img_T1_1.png" = "generated_images/"
      ++ (if 1 < 3 then
            sanitizeFilename (jsOrSS "img" "generated_image") ++ "_"
              ++ dashTimestamp (c9Env.isoTimestamp 0) ++ "_"
              ++ toString (0 + 1) ++ "." ++ ext
          else
            sanitizeFilename (jsOrSS "img" "generated_image") ++ "_"
              ++ dashTimestamp (c9Env.isoTimestamp 0) ++ "." ++ ext)) ∧
    (sanitizeFilename "img").toList.length ≤ 64 := by
  refine ⟨?_, ?_, ?_⟩
  · exact (C9_save_images.1 c9Env
      [⟨"base64", some "QUJD", none, none, some "png"⟩,
       ⟨"base64", some "REVG", none, none, some "png"⟩,
       ⟨"unknown", none, none, none, none⟩] "img" rfl).trans rfl
  · exact C9_save_images.2.1 c9Env 3 0
      ⟨"base64", some "QUJD", none, none, some "png"⟩ "img"
      "generated_images/img_T1_1.png" rfl
  · exact (C9_save_images.2.2 "img").1

end NanoBanana
